import Mathlib

/-!
Verification of the generation-tracking and persistence subsystem of the
repository (an Express server orchestrating remote video/image generation,
`src/server.js`).  The JavaScript code is shallowly embedded: each handler
becomes a pure Lean function from an explicit server state (the in-memory
`generatedVideos` array and the `global.uploadedImages` / `global.imageGenerations`
maps) and the remote responses (passed as parameters) to a new state, a count
of `saveVideosToFile` calls, and a response value.  Strings are Lean `String`s;
JavaScript truthiness of string-or-null fields is modelled explicitly.
-/

/-! ## Character and string helpers (JS string primitives) -/

/-- Characters treated as whitespace by the embedding of JS `trim` and `split(/\s+/)`
(ASCII subset of the JS whitespace class; all strings in this development are ASCII). -/
def isWsChar (c : Char) : Bool := c = ' ' ∨ c = '\t' ∨ c = '\n' ∨ c = '\r' ∨ c = Char.ofNat 11 ∨ c = Char.ofNat 12

/-- Case-sensitive test that `pat` is a leading segment of `txt`. -/
def charsLeads : List Char → List Char → Bool
  | [], _ => true
  | _ :: _, [] => false
  | p :: ps, c :: cs => p = c && charsLeads ps cs

/-- Case-insensitive variant: the pattern is given already lower-cased. -/
def charsLeadsCI : List Char → List Char → Bool
  | [], _ => true
  | _ :: _, [] => false
  | p :: ps, c :: cs => Char.toLower c = p && charsLeadsCI ps cs

/-- Does `pat` occur (case-sensitively) anywhere in the text? -/
def charsContains (pat : List Char) : List Char → Bool
  | [] => charsLeads pat []
  | c :: cs => charsLeads pat (c :: cs) || charsContains pat cs

/-- JS `s.startsWith(p)`. -/
def startsWithStr (s p : String) : Bool := charsLeads p.data s.data

/-- JS `s.includes(p)`. -/
def containsSubstr (s p : String) : Bool := charsContains p.data s.data

/-- JS `s.trim()` on a character list. -/
def trimL (cs : List Char) : List Char :=
  ((cs.dropWhile isWsChar).reverse.dropWhile isWsChar).reverse

/-- JS `s.trim()`. -/
def trimStr (s : String) : String := ⟨trimL s.data⟩

/-- JS `s.toLowerCase()` (ASCII). -/
def toLowerStr (s : String) : String := ⟨s.data.map Char.toLower⟩

/-- JS `s.toUpperCase()` (ASCII). -/
def toUpperStr (s : String) : String := ⟨s.data.map Char.toUpper⟩

/-- JS `s.substring(0, n)`. -/
def takeStr (n : Nat) (s : String) : String := ⟨s.data.take n⟩

/-- JS truthiness of a string-or-null/undefined value: present and non-empty. -/
def truthyS : Option String → Bool
  | none => false
  | some s => s ≠ ""

theorem truthyS_some (s : String) : truthyS (some s) = decide (s ≠ "") := rfl

theorem truthyS_none : truthyS none = false := rfl

/-- JS `o || d` for a string-or-null `o` and string default `d`. -/
def orElseTruthy (o : Option String) (d : String) : String :=
  match o with
  | some s => if s = "" then d else s
  | none => d

/-- Splitter behind JS `prompt.split(/\s+/)` followed by a length filter: the words
(maximal runs of non-whitespace).  JS's possible leading empty-string element is
irrelevant because every use filters by a positive length bound. -/
def splitWsAux : List Char → List Char → List String
  | [], acc => if acc = [] then [] else [⟨acc.reverse⟩]
  | c :: cs, acc =>
    if isWsChar c then
      (if acc = [] then splitWsAux cs [] else ⟨acc.reverse⟩ :: splitWsAux cs [])
    else splitWsAux cs (c :: acc)

/-- JS `s.split(/\s+/)` (modulo a filtered-out empty first element). -/
def splitWsStr (s : String) : List String := splitWsAux s.data []

/-- JS `words.join(' ')`. -/
def joinSpace : List String → String
  | [] => ""
  | [w] => w
  | w :: ws => w ++ " " ++ joinSpace ws

/-- The segment of `cs` strictly between the first and second comma, if a comma
exists: JS `s.split(',')[1]` (`none` models the JS `undefined`). -/
def splitSeg1 (cs : List Char) : Option (List Char) :=
  match cs.dropWhile (· ≠ ',') with
  | [] => none
  | _ :: rest => some (rest.takeWhile (· ≠ ','))

/-! ## `isBase64ImagePrompt` (src/server.js lines 191-195) -/

/-- Source `isBase64ImagePrompt`: a proper base64 data URI, i.e. the string starts
with `data:image/` and contains `;base64,`. -/
def isBase64ImagePrompt (prompt : String) : Bool :=
  startsWithStr prompt "data:image/" && containsSubstr prompt ";base64,"

/-! ## `sanitizePrompt` (src/server.js lines 839-849) -/

/-- The alternatives of the blocklist regex, in source order (the order matters:
JS alternation takes the first alternative that matches, so `kill` shadows
`killing`). -/
def blockTerms : List (List Char) :=
  ["weapon".data, "gun".data, "knife".data, "blood".data, "gore".data,
   "explicit".data, "nude".data, "naked".data, "sexy".data, "violence".data,
   "violent".data, "kill".data, "killing".data, "murder".data]

/-- Length of the first blocklist alternative matching (case-insensitively) at the
head of `cs`, if any. -/
def matchTermAt (cs : List Char) : Option Nat :=
  blockTerms.findSome? (fun t => if charsLeadsCI t cs then some t.length else none)

/-- One global pass of `replace(/weapon|gun|.../gi, '')`: scan left to right,
deleting each leftmost non-overlapping match and resuming after it.  The fuel is
the list length; each step consumes at least one character (all blocklist terms
are non-empty), so the fuel never runs out. -/
def stripTermsAux : Nat → List Char → List Char
  | 0, cs => cs
  | _ + 1, [] => []
  | fuel + 1, c :: cs =>
    match matchTermAt (c :: cs) with
    | some n => stripTermsAux fuel (List.drop (n - 1) cs)
    | none => c :: stripTermsAux fuel cs

/-- The blocklist-removal pass of `sanitizePrompt`. -/
def stripTerms (cs : List Char) : List Char := stripTermsAux cs.length cs

/-- `replace(/  +/g, ' ')`: every maximal run of spaces becomes a single space
(runs of length one are unchanged by both the regex and this function).  The flag
records whether the previous emitted character was a space. -/
def collapseSpAux : Bool → List Char → List Char
  | _, [] => []
  | prevSp, c :: cs =>
    if c = ' ' then
      (if prevSp then collapseSpAux true cs else ' ' :: collapseSpAux true cs)
    else c :: collapseSpAux false cs

/-- The space-collapsing pass of `sanitizePrompt`. -/
def collapseSp (cs : List Char) : List Char := collapseSpAux false cs

/-- Source `sanitizePrompt`: `if (!prompt) return ''`, then strip the blocklist,
collapse runs of spaces, trim, and fall back to the fixed generic prompt when the
result is empty. -/
def sanitizePrompt (prompt : String) : String :=
  if prompt = "" then ""
  else
    let sanitized : String := ⟨trimL (collapseSp (stripTerms prompt.data))⟩
    if sanitized = "" then "A creative digital artwork" else sanitized

/-! ## `enhancePrompt` (called at src/server.js line 353; not defined in the sources) -/

/-- Modelled from the spec: the lookup table of `enhancePrompt` for known short
subjects.  The source calls `enhancePrompt` but does not define it; spec section
4.5 specifies a fixed lookup table (case-insensitive exact match) whose concrete
entries, beyond the existence of a `beach` entry, are not given, so representative
expansions are used here.  Keys are stored lower-cased. -/
def promptTable : List (String × String) :=
  [("beach", "A serene tropical beach with golden sand, gentle turquoise waves, and palm trees swaying under a warm sunset sky"),
   ("cat", "A fluffy cat with bright curious eyes lounging in a sunlit room full of soft shadows"),
   ("dog", "A playful dog running joyfully through a green meadow dotted with wildflowers"),
   ("city", "A sprawling city skyline at dusk with glowing windows, busy streets, and dramatic clouds overhead"),
   ("forest", "A lush ancient forest with tall moss-covered trees and rays of light filtering through the canopy"),
   ("sunset", "A breathtaking sunset over the horizon painting the sky in vivid shades of orange, pink, and purple"),
   ("ocean", "A vast deep blue ocean with rolling waves sparkling under the bright midday sun"),
   ("mountain", "A majestic snow-capped mountain range rising above misty valleys in the early morning light")]

/-- Case-insensitive exact-match lookup in the prompt table. -/
def tableLookCI : List (String × String) → String → Option String
  | [], _ => none
  | (k, v) :: rest, p => if toLowerStr p = k then some v else tableLookCI rest p

/-- The generic template of the prompt enhancer (spec section 4.5, quoted verbatim). -/
def genericTemplateOf (prompt : String) : String :=
  "A cinematic, detailed view of " ++ prompt ++ " with beautiful lighting, rich textures, and vibrant colors in a natural setting"

/-- Modelled from the spec: `enhancePrompt` itself is missing from the repository
sources (only its call site at src/server.js line 353 is present).  Spec section
4.5: identity if length > 30; else lookup-table expansion on a case-insensitive
exact match of a known short subject; else the generic template. -/
def enhancePrompt (prompt : String) : String :=
  if prompt.length > 30 then prompt
  else
    match tableLookCI promptTable prompt with
    | some v => v
    | none => genericTemplateOf prompt

/-! ## `saveImageToDisk` (src/server.js lines 51-92) -/

/-- Character class `[A-Za-z-+\/]` of the MIME-type group in the data-URI regex. -/
def mimeChar (c : Char) : Bool :=
  ('A' ≤ c ∧ c ≤ 'Z') ∨ ('a' ≤ c ∧ c ≤ 'z') ∨ c = '-' ∨ c = '+' ∨ c = '/'

/-- JS line terminators, which `.` in a regex does not match. -/
def lineTermChar (c : Char) : Bool :=
  c = '\n' ∨ c = '\r' ∨ c.toNat = 8232 ∨ c.toNat = 8233

/-- The match of `/^data:([A-Za-z-+\/]+);base64,(.+)$/` against the whole string:
a `data:` head, a non-empty greedy run of MIME characters (the class excludes `;`,
so the greedy run is the only possible match), the literal `;base64,`, and a
non-empty remainder free of line terminators (`.` matches no line terminator and
`$` without the `m` flag anchors at the end of input). -/
def dataUriSplit (cs : List Char) : Option (List Char × List Char) :=
  if charsLeads "data:".data cs then
    let rest := cs.drop 5
    let mime := rest.takeWhile mimeChar
    let rest2 := rest.dropWhile mimeChar
    if mime ≠ [] ∧ charsLeads ";base64,".data rest2 then
      let dat := rest2.drop 8
      if dat ≠ [] ∧ dat.all (fun c => ¬ lineTermChar c) then some (mime, dat) else none
    else none
  else none

/-- `new Date().toISOString().replace(/[:.]/g, '-')`: the raw timestamp string is a
parameter of the embedding; the replacement maps each `:` or `.` to `-`. -/
def tsClean (ts : String) : String :=
  ⟨ts.data.map (fun c => if c = ':' ∨ c = '.' then '-' else c)⟩

/-- The success value of `saveImageToDisk` (the numeric `size` field, the decoded
byte count, is not modelled; no claim mentions it). -/
structure SavedImage where
  url : String
  type : String
  filename : String
deriving Repr, DecidableEq

/-- Source `saveImageToDisk`: parse the data URI (returning `null`, i.e. `none`,
via the catch block when the regex does not match), always use the `jpg`
extension, name the file from the id hint and the cleaned timestamp, and return
the relative URL under the static prefix.  The `fs` write is an external effect
modelled as succeeding; any throw inside the body is caught and becomes `none`,
so the function is total for its caller. -/
def saveImageToDisk (base64Image : String) (generationId : String) (ts : String) : Option SavedImage :=
  match dataUriSplit base64Image.data with
  | none => none
  | some (mime, _) =>
    let extension := "jpg"
    let filename := generationId ++ "_" ++ tsClean ts ++ "." ++ extension
    some { url := "/saved_images/" ++ filename, type := (⟨mime⟩ : String), filename := filename }

/-- The claim's inline data-URI pattern `data:<mime>;base64,<data>` as an
explicit decomposition (the spec side of C9): non-empty MIME over the regex's
character class, the literal `;base64,`, and non-empty data that the regex's
`.+$` can match (no line terminators). -/
def isDataUriDecomp (s : String) (m d : List Char) : Prop :=
  s.data = "data:".data ++ m ++ ";base64,".data ++ d ∧ m ≠ [] ∧
  (∀ c ∈ m, mimeChar c = true) ∧ d ≠ [] ∧ (∀ c ∈ d, lineTermChar c = false)

/-! ## Data model: persisted records and process-wide state -/

/-- One entry of the `generatedVideos` array (the Record Store).  Fields that a
given write site omits (JS object keys that are absent rather than `null`) are
modelled as `none` at creation and are never overwritten by a merge that does not
mention them. -/
structure VideoRecord where
  id : String
  type : Option String
  url : Option String
  imageUrl : Option String
  title : String
  client : String
  background : Option String
  prompt : String
  originalPrompt : Option String
  imageDescription : Option String
  timestamp : String
deriving Repr, DecidableEq

/-- An entry of `global.uploadedImages` (pending-image metadata written at
submission, src/server.js lines 396-413, and rewritten by the status handler at
lines 501-513). -/
structure ImageMeta where
  title : Option String
  client : Option String
  background : Option String
  prompt : Option String
  originalPrompt : Option String
  imageUrl : Option String
  image : Option String
  imageSaved : Bool
  timestamp : String
deriving Repr, DecidableEq

/-- An entry of `global.imageGenerations` (src/server.js lines 995-1003). -/
structure ImageGenMeta where
  title : Option String
  client : Option String
  background : Option String
  prompt : Option String
  actualPrompt : String
  attempts : Nat
  timestamp : String
deriving Repr, DecidableEq

/-- The process-wide mutable state touched by the handlers. -/
structure ServerState where
  videos : List VideoRecord
  uploaded : List (String × ImageMeta)
  imageGens : List (String × ImageGenMeta)
deriving Repr, DecidableEq

/-- Lookup in a string-keyed object map. -/
def assocGet {α : Type} : List (String × α) → String → Option α
  | [], _ => none
  | (k', v) :: rest, k => if k' = k then some v else assocGet rest k

/-- Assignment `obj[k] = v` in a string-keyed object map. -/
def assocSet {α : Type} : List (String × α) → String → α → List (String × α)
  | [], k, v => [(k, v)]
  | (k', v') :: rest, k, v => if k' = k then (k, v) :: rest else (k', v') :: assocSet rest k v

/-- `generatedVideos.find(v => v.id === gid)` / the record at `findIndex`. -/
def findFirst : List VideoRecord → String → Option VideoRecord
  | [], _ => none
  | v :: rest, gid => if v.id = gid then some v else findFirst rest gid

/-- Number of records with the given id. -/
def countById : List VideoRecord → String → Nat
  | [], _ => 0
  | v :: rest, gid => (if v.id = gid then 1 else 0) + countById rest gid

/-- The spread `{...existing, ...prelimVideoRecord}` (src/server.js lines 433-436):
the preliminary record carries exactly the keys `id`, `url`, `imageUrl`, `title`,
`client`, `background`, `prompt`, `originalPrompt`, `timestamp`, so those overwrite
the existing record (even with `null`) while `type` and `imageDescription` survive. -/
def prelimMerge (old new : VideoRecord) : VideoRecord :=
  { old with
    id := new.id, url := new.url, imageUrl := new.imageUrl, title := new.title,
    client := new.client, background := new.background, prompt := new.prompt,
    originalPrompt := new.originalPrompt, timestamp := new.timestamp }

/-- The preliminary-write upsert (src/server.js lines 429-440): replace the first
record with the same id by the spread merge, else push. -/
def applyPrelim : List VideoRecord → VideoRecord → List VideoRecord
  | [], r => [r]
  | v :: rest, r => if v.id = r.id then prelimMerge v r :: rest else v :: applyPrelim rest r

/-- The spread `{...existing, ...videoRecord}` (src/server.js lines 596-599): the
completion-time record carries exactly the keys `id`, `url`, `imageUrl`, `title`,
`client`, `background`, `prompt`, `imageDescription`, `timestamp`; `type` and
`originalPrompt` survive from the existing record. -/
def finalMerge (old new : VideoRecord) : VideoRecord :=
  { old with
    id := new.id, url := new.url, imageUrl := new.imageUrl, title := new.title,
    client := new.client, background := new.background, prompt := new.prompt,
    imageDescription := new.imageDescription, timestamp := new.timestamp }

/-- The merge-preserve rule of src/server.js lines 592-594: when the incoming
record's `imageUrl` is falsy and the existing one's is truthy, the existing
`imageUrl` is kept on the incoming record. -/
def preserveImageUrl (old r : VideoRecord) : VideoRecord :=
  if ¬ truthyS r.imageUrl ∧ truthyS old.imageUrl then { r with imageUrl := old.imageUrl } else r

/-- The completion-time upsert (src/server.js lines 590-603): apply the
merge-preserve rule, then replace the first record with the same id by the
spread merge; push when no record matches. -/
def applyFinal : List VideoRecord → VideoRecord → List VideoRecord
  | [], r => [r]
  | v :: rest, r =>
    if v.id = r.id then finalMerge v (preserveImageUrl v r) :: rest
    else v :: applyFinal rest r

/-! ## Requests, responses and handlers -/

deriving instance DecidableEq for Except

/-- An HTTP error response: status code and `error` field. -/
structure ErrResp where
  status : Nat
  error : String
deriving Repr, DecidableEq

/-- Body of POST /generate-video (fields the embedding uses; `model`,
`negative_prompt`, `resolution` and `duration` are forwarded opaquely to the
adapter and touched by no claim). -/
structure GenVideoReq where
  prompt : Option String
  image : Option String
  title : Option String
  clientName : Option String
  background : Option String
deriving Repr, DecidableEq

/-- Success response of POST /generate-video (src/server.js lines 451-459):
`submittedPrompt` mirrors `generationParams.prompt`, the prompt actually sent to
`client.generations.create` and echoed in the response. -/
structure GenVideoOk where
  generationId : String
  submittedPrompt : String
  imageUrl : Option String
deriving Repr, DecidableEq

/-- The prompt actually submitted by POST /generate-video (src/server.js lines
352-354): enhanced when the trimmed request prompt is shorter than 10 characters. -/
def videoPromptOf (p0 : String) : String :=
  if (trimStr p0).length < 10 then enhancePrompt p0 else p0

/-- The display client name derived by POST /generate-video (src/server.js lines
357-369) from the (possibly enhanced) prompt when the request's client name is
missing, blank, or the disallowed placeholder. -/
def deriveVideoClient (req : GenVideoReq) (prompt : String) : String :=
  if ¬ truthyS req.clientName ∨ trimStr (req.clientName.getD "") = ""
      ∨ toLowerStr (req.clientName.getD "") = "ai creation" then
    if prompt ≠ "" ∧ ¬ isBase64ImagePrompt prompt then
      let words := (splitWsStr prompt).filter (fun w => w.length > 3)
      if words ≠ [] then toUpperStr (joinSpace (words.take 2)) ++ " STUDIOS"
      else "AI ABSTRACTIONS"
    else "AI ABSTRACTIONS"
  else req.clientName.getD ""

/-- The preliminary video record written at submission (src/server.js lines
417-427): `url` is null pending completion, an image-data prompt is replaced by
the sentinel in `prompt` but kept verbatim in `originalPrompt`. -/
def prelimVideoRecordOf (req : GenVideoReq) (clientName prompt : String)
    (saved : Option SavedImage) (gid now : String) : VideoRecord :=
  { id := gid, type := none, url := none, imageUrl := saved.map (·.url),
    title := orElseTruthy req.title ("Untitled-" ++ takeStr 6 gid),
    client := clientName,
    background := some (orElseTruthy req.background "#f0f4ff"),
    prompt := if ¬ isBase64ImagePrompt prompt then prompt else "Image-based prompt",
    originalPrompt := some prompt, imageDescription := none, timestamp := now }

/-- The pending-image metadata stored in `global.uploadedImages` at submission
(src/server.js lines 396-413); note that it carries no `image` field. -/
def uploadedMetaOf (req : GenVideoReq) (clientName prompt : String)
    (saved : Option SavedImage) (now : String) : ImageMeta :=
  { title := req.title, client := some clientName, background := req.background,
    prompt := some prompt, originalPrompt := some prompt,
    imageUrl := saved.map (·.url), image := none, imageSaved := saved.isSome,
    timestamp := now }

/-- POST /generate-video (src/server.js lines 330-468).  Beyond the state: the
request body, the adapter's result (`client.generations.create`: a generation id
on success, an error message on failure) and the current ISO timestamp.  The
returned `Nat` counts `saveVideosToFile` calls. -/
def generateVideoStep (st : ServerState) (req : GenVideoReq)
    (adapter : Except String String) (now : String) :
    ServerState × Nat × Except ErrResp GenVideoOk :=
  if ¬ truthyS req.prompt then (st, 0, .error ⟨400, "Prompt is required"⟩)
  else
    let p0 := req.prompt.getD ""
    let imageInvalid := match req.image with
      | some img => img ≠ "" && !(startsWithStr img "data:image/")
      | none => false
    if imageInvalid then (st, 0, .error ⟨400, "Valid base64 image data is required"⟩)
    else
      let prompt := videoPromptOf p0
      let clientName := deriveVideoClient req prompt
      match adapter with
      | .error msg => (st, 0, .error ⟨500, msg⟩)
      | .ok gid =>
        if truthyS req.image then
          let img := req.image.getD ""
          let saved := saveImageToDisk img gid now
          ({ st with
             videos := applyPrelim st.videos (prelimVideoRecordOf req clientName prompt saved gid now),
             uploaded := assocSet st.uploaded gid (uploadedMetaOf req clientName prompt saved now) }, 1,
           .ok { generationId := gid, submittedPrompt := prompt, imageUrl := saved.map (·.url) })
        else
          (st, 0, .ok { generationId := gid, submittedPrompt := prompt, imageUrl := none })

/-- The remote `client.generations.get` view used by GET /video-status:
`video` is `status.assets?.video`. -/
structure RemoteStatus where
  state : String
  video : Option String
  failureReason : Option String
deriving Repr, DecidableEq

/-- Response view of the status endpoints (fields the claims touch). -/
structure VSResponse where
  state : String
  id : String
  imageUrl : Option String
  imageDescription : Option String
  failureReason : Option String
deriving Repr, DecidableEq

/-- `http://localhost:${server.address().port}`; the port is modelled fixed. -/
def serverBase : String := "http://localhost:5002"

/-- The `prompt` field of the completion-time video record (src/server.js lines
581-585): prefer a non-image `originalPrompt`, else the stored prompt with the
image-data sentinel substitution, else the no-prompt sentinel. -/
def finalPromptOf (imageData : Option ImageMeta) : String :=
  match imageData with
  | some md =>
    if truthyS md.originalPrompt ∧ ¬ isBase64ImagePrompt (md.originalPrompt.getD "") then
      md.originalPrompt.getD ""
    else if truthyS md.prompt then
      (if isBase64ImagePrompt (md.prompt.getD "") then "Image-based prompt" else md.prompt.getD "")
    else "No prompt available"
  | none => "No prompt available"

/-- The `imageDescription` of the completion-time video record (src/server.js
lines 544-566): describe the cached image when still present, else a non-image
stored prompt, else fall back to the pre-update record's description or prompt. -/
def finalDescOf (imageData : Option ImageMeta) (existing0 : Option VideoRecord)
    (describe : Option String → String) : Option String :=
  let desc0 : Option String := match imageData with
    | some md =>
      if truthyS md.image then
        some (describe ((splitSeg1 (md.image.getD "").data).map (fun l => (⟨l⟩ : String))))
      else if truthyS md.prompt ∧ ¬ isBase64ImagePrompt (md.prompt.getD "") then md.prompt
      else none
    | none => none
  if ¬ truthyS desc0 then
    match existing0 with
    | some ev =>
      if truthyS ev.imageDescription then ev.imageDescription
      else if ev.prompt ≠ "" ∧ ¬ isBase64ImagePrompt ev.prompt then some ev.prompt
      else desc0
    | none => desc0
  else desc0

/-- The completion-time video record assembled by GET /video-status (src/server.js
lines 530-588); `existing0` is `generatedVideos.find(v => v.id === generationId)`
evaluated before the upsert. -/
def finalVideoRecord (imageData : Option ImageMeta) (existing0 : Option VideoRecord)
    (imageSavedUrl : Option String) (generationId vurl now : String)
    (describe : Option String → String) : VideoRecord :=
  let title := match imageData with
    | some md => orElseTruthy md.title ("Untitled-" ++ takeStr 6 generationId)
    | none => "Untitled-" ++ takeStr 6 generationId
  let clientName0 := match imageData with
    | some md => orElseTruthy md.client "AI ABSTRACTIONS"
    | none => "AI ABSTRACTIONS"
  let clientName := match imageData with
    | some md =>
      if ¬ truthyS md.client ∧ truthyS md.prompt then
        let words := (splitWsStr (md.prompt.getD "")).filter (fun w => w.length > 2)
        if words ≠ [] then toUpperStr (joinSpace (words.take 3)) else clientName0
      else clientName0
    | none => clientName0
  let imageUrl : Option String := match imageSavedUrl with
    | some u => some u
    | none => match imageData with
      | some md => if truthyS md.imageUrl then md.imageUrl else none
      | none => none
  { id := generationId, type := none, url := some vurl, imageUrl := imageUrl,
    title := title, client := clientName,
    background := (match imageData with | some md => md.background | none => none),
    prompt := finalPromptOf imageData, originalPrompt := none,
    imageDescription := finalDescOf imageData existing0 describe,
    timestamp := now }

/-- The pre-completion block of GET /video-status (src/server.js lines 487-523):
if pending metadata still carries an unsaved image, save it to disk, strip the
`image` field, mark it saved, record the URL (null on a failed save) and clean an
image-data prompt; else reuse an already stored URL.  Returns the
`imageSavedData` URL (`none` for the JS `null` object) and the updated
`global.uploadedImages` map. -/
def preSaveStep (st : ServerState) (generationId now : String) :
    Option String × List (String × ImageMeta) :=
  match assocGet st.uploaded generationId with
  | none => (none, st.uploaded)
  | some md =>
    if truthyS md.image ∧ ¬ md.imageSaved then
      let saved := saveImageToDisk (md.image.getD "") generationId now
      let cleaned := match md.prompt with
        | some pr => if pr ≠ "" ∧ isBase64ImagePrompt pr then some "Image-based prompt" else some pr
        | none => none
      let md1 := { md with
        image := none, imageSaved := true, imageUrl := saved.map (·.url), prompt := cleaned }
      (saved.map (·.url), assocSet st.uploaded generationId md1)
    else if truthyS md.imageUrl then (md.imageUrl, st.uploaded)
    else (none, st.uploaded)

/-- GET /video-status/:generationId (src/server.js lines 470-667).  `describe`
models `generateImageDescriptionFromBase64` applied to `image.split(',')[1]`
(`none` is the JS `undefined` argument); the function never throws in the source
(every failure is converted to an error string), so it is a total parameter. -/
def videoStatusStep (st : ServerState) (generationId : String) (status : RemoteStatus)
    (now : String) (describe : Option String → String) :
    ServerState × Nat × Except ErrResp VSResponse :=
  if generationId = "" then (st, 0, .error ⟨400, "Generation ID is required"⟩)
  else
    let imageData := assocGet st.uploaded generationId
    let pre := preSaveStep st generationId now
    let imageSavedUrl := pre.1
    let uploaded1 := pre.2
    if status.state = "completed" then
      let step : List VideoRecord × Nat :=
        match status.video with
        | some vurl =>
          (applyFinal st.videos
            (finalVideoRecord imageData (findFirst st.videos generationId) imageSavedUrl
              generationId vurl now describe), 1)
        | none => (st.videos, 0)
      let videos1 := step.1
      let existingVideo := findFirst videos1 generationId
      let imageDesc : Option String := match existingVideo with
        | some ev => if truthyS ev.imageDescription then ev.imageDescription else none
        | none => none
      let absoluteImageUrl : Option String :=
        if truthyS imageSavedUrl then some (serverBase ++ imageSavedUrl.getD "")
        else match existingVideo with
          | some ev =>
            if truthyS ev.imageUrl ∧ ¬ startsWithStr (ev.imageUrl.getD "") "http" then
              some (serverBase ++ ev.imageUrl.getD "")
            else if truthyS ev.imageUrl then ev.imageUrl
            else none
          | none => none
      (⟨videos1, uploaded1, st.imageGens⟩, step.2,
       .ok { state := status.state, id := generationId, imageUrl := absoluteImageUrl,
             imageDescription := imageDesc, failureReason := none })
    else if status.state = "failed" then
      ({ st with uploaded := uploaded1 }, 0,
       .ok { state := "failed", id := generationId, imageUrl := none, imageDescription := none,
             failureReason := some (orElseTruthy status.failureReason "Unknown failure reason") })
    else
      let absoluteImageUrl : Option String :=
        if truthyS imageSavedUrl then some (serverBase ++ imageSavedUrl.getD "")
        else match imageData with
          | some md =>
            if truthyS md.imageUrl then
              (if startsWithStr (md.imageUrl.getD "") "http" then md.imageUrl
               else some (serverBase ++ md.imageUrl.getD ""))
            else none
          | none => none
      ({ st with uploaded := uploaded1 }, 0,
       .ok { state := status.state, id := generationId, imageUrl := absoluteImageUrl,
             imageDescription := none, failureReason := none })

/-- The remote view used by GET /image-status: `image` is `status.assets.image`. -/
structure RemoteImageStatus where
  state : String
  image : Option String
  failureReason : Option String
deriving Repr, DecidableEq

/-- GET /image-status/:generationId (src/server.js lines 1031-1103).  On a truthy
completed image URL the record is appended unconditionally (`push`, line 1070;
there is no find-by-id here). -/
def imageStatusStep (st : ServerState) (generationId : String) (status : RemoteImageStatus)
    (now : String) : ServerState × Nat × Except ErrResp VSResponse :=
  if generationId = "" then (st, 0, .error ⟨400, "Generation ID is required"⟩)
  else if status.state = "completed" then
    let imageUrl := status.image
    let imageData := assocGet st.imageGens generationId
    if truthyS imageUrl then
      let irec : VideoRecord := {
        id := generationId, type := some "luma-image", url := imageUrl, imageUrl := imageUrl,
        title := (match imageData with
          | some m => orElseTruthy m.title ("Image-" ++ takeStr 6 generationId)
          | none => "Image-" ++ takeStr 6 generationId),
        client := (match imageData with
          | some m => orElseTruthy m.client "AI ABSTRACTIONS"
          | none => "AI ABSTRACTIONS"),
        background := some (match imageData with
          | some m => orElseTruthy m.background "#f0f4ff"
          | none => "#f0f4ff"),
        prompt := (match imageData with
          | some m => orElseTruthy m.prompt "No prompt available"
          | none => "No prompt available"),
        originalPrompt := none, imageDescription := none, timestamp := now }
      ({ st with videos := st.videos ++ [irec] }, 1,
       .ok { state := status.state, id := generationId, imageUrl := imageUrl,
             imageDescription := none, failureReason := none })
    else
      (st, 0, .ok { state := status.state, id := generationId, imageUrl := imageUrl,
                    imageDescription := none, failureReason := none })
  else if status.state = "failed" then
    (st, 0, .ok { state := "failed", id := generationId, imageUrl := none,
                  imageDescription := none, failureReason := some (orElseTruthy status.failureReason "Unknown failure reason") })
  else
    (st, 0, .ok { state := status.state, id := generationId, imageUrl := none,
                  imageDescription := none, failureReason := none })

/-- Body of POST /save-image. -/
structure SaveImageReq where
  prompt : Option String
  image : Option String
  title : Option String
  clientName : Option String
deriving Repr, DecidableEq

/-- POST /save-image (src/server.js lines 759-836).  `generationId` models the
locally synthesized `img-${Date.now()}-${random}` id.  On a `null` from
`saveImageToDisk` the handler throws and answers 500 without touching the store.
(The guard `prompt && typeof prompt === 'string'` before the word derivation is
absorbed: an absent or empty prompt yields no words of length > 3 either way.) -/
def saveImageStep (st : ServerState) (req : SaveImageReq) (generationId : String)
    (now : String) : ServerState × Nat × Except ErrResp String :=
  if ¬ truthyS req.image then (st, 0, .error ⟨400, "Image data is required"⟩)
  else if ¬ startsWithStr (req.image.getD "") "data:image/" then
    (st, 0, .error ⟨400, "Valid base64 image data is required"⟩)
  else
    let clientName :=
      if ¬ truthyS req.clientName ∨ trimStr (req.clientName.getD "") = "" then
        match req.prompt with
        | some p =>
          let words := (splitWsStr p).filter (fun w => w.length > 3)
          if words ≠ [] then toUpperStr (joinSpace (words.take 2)) ++ " STUDIOS"
          else "AI ABSTRACTIONS"
        | none => "AI ABSTRACTIONS"
      else req.clientName.getD ""
    match saveImageToDisk (req.image.getD "") generationId now with
    | none => (st, 0, .error ⟨500, "Failed to save image: Failed to save image to disk"⟩)
    | some saved =>
      let irec : VideoRecord := {
        id := generationId, type := some "image", url := none, imageUrl := some saved.url,
        title := orElseTruthy req.title ("Image-" ++ takeStr 6 generationId),
        client := clientName, background := some "#f0f4ff",
        prompt := orElseTruthy req.prompt "No prompt available",
        originalPrompt := none, imageDescription := none, timestamp := now }
      ({ st with videos := st.videos ++ [irec] }, 1, .ok (serverBase ++ saved.url))

/-! ## POST /generate-image: retry-on-moderation loop (src/server.js lines 852-1028) -/

/-- Parameters of one `client.generations.image.create` call.  The image-reference
weight is kept in hundredths (`0.85` → `85`, `0.5` → `50`) so the embedding stays
in exact arithmetic; `none` means no `image_ref` entry. -/
structure ImageGenParams where
  prompt : String
  refWeight : Option Nat
deriving Repr, DecidableEq

/-- Result of one remote image-creation attempt. -/
inductive AttemptOut where
  | ok (generationId : String)
  | err (message : String)
deriving Repr, DecidableEq

/-- A moderation-style upstream rejection (src/server.js lines 962-965). -/
def isModerationMsg (m : String) : Bool :=
  containsSubstr m "moderation" || containsSubstr m "safety" ||
  containsSubstr m "content policy" || containsSubstr m "rejected"

/-- Outcome of the retry loop. -/
inductive RetryResult where
  | success (generationId : String) (attempts : Nat)
  | moderationFail (lastMessage : String) (attempts : Nat)
  | thrown (message : String) (attempts : Nat)
deriving Repr, DecidableEq

/-- The retry loop of POST /generate-image (src/server.js lines 918-974) with its
literal `maxAttempts = 3` unrolled; `oracle n` is the remote result of the `n`-th
`client.generations.image.create` call.  Attempt 2 sanitizes the prompt; attempt 3
reduces the image-reference weight to 0.5 (when present) and uses the generic
fallback prompt.  A non-moderation error is re-thrown at once.  Also returns the
trace of parameter sets actually sent, in attempt order. -/
def imageAttemptLoop (oracle : Nat → AttemptOut) (p0 : ImageGenParams) :
    RetryResult × List ImageGenParams :=
  match oracle 1 with
  | .ok g => (.success g 1, [p0])
  | .err m1 =>
    if isModerationMsg m1 then
      let p2 : ImageGenParams := { p0 with prompt := sanitizePrompt p0.prompt }
      match oracle 2 with
      | .ok g => (.success g 2, [p0, p2])
      | .err m2 =>
        if isModerationMsg m2 then
          let p3 : ImageGenParams :=
            { prompt := "A beautiful digital artwork", refWeight := p2.refWeight.map (fun _ => 50) }
          match oracle 3 with
          | .ok g => (.success g 3, [p0, p2, p3])
          | .err m3 =>
            if isModerationMsg m3 then (.moderationFail m3 3, [p0, p2, p3])
            else (.thrown m3 3, [p0, p2, p3])
        else (.thrown m2 2, [p0, p2])
    else (.thrown m1 1, [p0])

/-- ASCII letter test, for the `[a-z]+` group under the `/i` flag. -/
def isAsciiLetter (c : Char) : Bool := ('a' ≤ c ∧ c ≤ 'z') ∨ ('A' ≤ c ∧ c ≤ 'Z')

/-- Match of `/data:(image\/[a-z]+);base64,/i` at the head of `cs`, returning the
captured group (the original-case `image/...` slice). -/
def imageRefMimeAt (cs : List Char) : Option String :=
  if charsLeadsCI "data:image/".data cs then
    let rest := cs.drop 11
    let letters := rest.takeWhile isAsciiLetter
    let rest2 := rest.dropWhile isAsciiLetter
    if letters ≠ [] ∧ charsLeadsCI ";base64,".data rest2 then
      some ⟨(cs.drop 5).take (6 + letters.length)⟩
    else none
  else none

/-- Unanchored search for the same pattern (JS `String.match` scans forward). -/
def imageRefMimeSearch : List Char → Option String
  | [] => none
  | c :: cs =>
    match imageRefMimeAt (c :: cs) with
    | some m => some m
    | none => imageRefMimeSearch cs

/-- The image-reference block of POST /generate-image (src/server.js lines
876-914): size limit on the base64 payload, MIME whitelist, and an `image_ref`
with weight 0.85 when the reference image could be saved.  A failed property
access on an undefined/null match result is the JS TypeError, caught by the outer
handler as a 500. -/
def imageRefParams (p : String) (image : Option String) (now : String) :
    Except ErrResp ImageGenParams :=
  match image with
  | some img =>
    if img ≠ "" ∧ startsWithStr img "data:image/" then
      match splitSeg1 img.data with
      | none => .error ⟨500, "Cannot read properties of undefined"⟩
      | some b64 =>
        if b64.length > 10000000 then .error ⟨400, "Image too large"⟩
        else
          match imageRefMimeSearch img.data with
          | none => .error ⟨500, "Cannot read properties of null"⟩
          | some mime =>
            if toLowerStr mime = "image/jpeg" ∨ toLowerStr mime = "image/png"
                ∨ toLowerStr mime = "image/webp" then
              match saveImageToDisk img ("temp-" ++ now) now with
              | some _ => .ok { prompt := p, refWeight := some 85 }
              | none => .ok { prompt := p, refWeight := none }
            else .error ⟨400, "Unsupported image format"⟩
    else .ok { prompt := p, refWeight := none }
  | none => .ok { prompt := p, refWeight := none }

/-- Success response of POST /generate-image (src/server.js lines 1006-1015). -/
structure GenImageOk where
  generationId : String
  prompt : String
  originalPrompt : String
  attempts : Nat
deriving Repr, DecidableEq

/-- POST /generate-image (src/server.js lines 852-1028). -/
def generateImageStep (st : ServerState) (req : GenVideoReq) (oracle : Nat → AttemptOut)
    (now : String) : ServerState × Nat × Except ErrResp GenImageOk :=
  if ¬ truthyS req.prompt then (st, 0, .error ⟨400, "Prompt is required"⟩)
  else
    let p := req.prompt.getD ""
    match imageRefParams p req.image now with
    | .error e => (st, 0, .error e)
    | .ok params0 =>
      match imageAttemptLoop oracle params0 with
      | (.success gid attempts, trace) =>
        let lastParams := trace.getLast?.getD params0
        let meta : ImageGenMeta := {
          title := some (orElseTruthy req.title ("Image-" ++ takeStr 6 gid)),
          client := some (orElseTruthy req.clientName "AI ABSTRACTIONS"),
          background := some (orElseTruthy req.background "#f0f4ff"),
          prompt := some p, actualPrompt := lastParams.prompt,
          attempts := attempts, timestamp := now }
        ({ st with imageGens := assocSet st.imageGens gid meta }, 0,
         .ok { generationId := gid, prompt := lastParams.prompt, originalPrompt := p,
               attempts := attempts })
      | (.moderationFail _ _, _) =>
        (st, 0, .error ⟨400, "The image or prompt was rejected by content moderation after multiple attempts"⟩)
      | (.thrown m _, _) => (st, 0, .error ⟨500, m⟩)

/-! ## Helper lemmas about the Record Store operations -/

theorem preserveImageUrl_id (old r : VideoRecord) : (preserveImageUrl old r).id = r.id := by
  unfold preserveImageUrl; split <;> rfl

theorem preserveImageUrl_prompt (old r : VideoRecord) :
    (preserveImageUrl old r).prompt = r.prompt := by
  unfold preserveImageUrl; split <;> rfl

theorem preserveImageUrl_url (old r : VideoRecord) : (preserveImageUrl old r).url = r.url := by
  unfold preserveImageUrl; split <;> rfl

theorem preserveImageUrl_timestamp (old r : VideoRecord) :
    (preserveImageUrl old r).timestamp = r.timestamp := by
  unfold preserveImageUrl; split <;> rfl

theorem findFirst_applyPrelim (videos : List VideoRecord) (r : VideoRecord) :
    ∃ r', findFirst (applyPrelim videos r) r.id = some r' ∧ r'.id = r.id ∧ r'.url = r.url ∧
      r'.imageUrl = r.imageUrl ∧ r'.title = r.title ∧ r'.prompt = r.prompt ∧
      r'.originalPrompt = r.originalPrompt ∧ r'.timestamp = r.timestamp := by
  induction videos with
  | nil => exact ⟨r, by simp [applyPrelim, findFirst], rfl, rfl, rfl, rfl, rfl, rfl, rfl⟩
  | cons v rest ih =>
    by_cases h : v.id = r.id
    · exact ⟨prelimMerge v r, by simp [applyPrelim, h, findFirst, prelimMerge],
        rfl, rfl, rfl, rfl, rfl, rfl, rfl⟩
    · obtain ⟨r', hfind, hrest⟩ := ih
      exact ⟨r', by simp [applyPrelim, h, findFirst, hfind], hrest⟩

theorem findFirst_applyFinal (videos : List VideoRecord) (r : VideoRecord) :
    ∃ r', findFirst (applyFinal videos r) r.id = some r' ∧ r'.id = r.id ∧ r'.url = r.url ∧
      r'.prompt = r.prompt ∧ r'.timestamp = r.timestamp := by
  induction videos with
  | nil => exact ⟨r, by simp [applyFinal, findFirst], rfl, rfl, rfl, rfl⟩
  | cons v rest ih =>
    by_cases h : v.id = r.id
    · refine ⟨finalMerge v (preserveImageUrl v r), ?_, ?_, ?_, ?_, ?_⟩
      · simp [applyFinal, h, findFirst, finalMerge, preserveImageUrl_id]
      · simp [finalMerge, preserveImageUrl_id]
      · simp [finalMerge, preserveImageUrl_url]
      · simp [finalMerge, preserveImageUrl_prompt]
      · simp [finalMerge, preserveImageUrl_timestamp]
    · obtain ⟨r', hfind, hrest⟩ := ih
      exact ⟨r', by simp [applyFinal, h, findFirst, hfind], hrest⟩

theorem applyFinal_keeps_imageUrl (videos : List VideoRecord) (r old : VideoRecord) (u : String)
    (hfind : findFirst videos r.id = some old) (hold : old.imageUrl = some u) (hu : u ≠ "")
    (hr : truthyS r.imageUrl = false) :
    ∃ r2, findFirst (applyFinal videos r) r.id = some r2 ∧ r2.imageUrl = some u := by
  induction videos with
  | nil => simp [findFirst] at hfind
  | cons v rest ih =>
    by_cases h : v.id = r.id
    · have hv : v = old := by simpa [findFirst, h] using hfind
      subst hv
      have hcond : (¬ truthyS r.imageUrl ∧ truthyS v.imageUrl) := by
        constructor
        · simp [hr]
        · simp [hold, truthyS, hu]
      refine ⟨finalMerge v (preserveImageUrl v r), ?_, ?_⟩
      · simp [applyFinal, h, findFirst, finalMerge, preserveImageUrl_id]
      · have ht : truthyS (some u) = true := by simp [truthyS, hu]
        simp [finalMerge, preserveImageUrl, hcond, hold, ht]
    · have hfind' : findFirst rest r.id = some old := by simpa [findFirst, h] using hfind
      obtain ⟨r2, hf2, hi2⟩ := ih hfind'
      exact ⟨r2, by simp [applyFinal, h, findFirst, hf2], hi2⟩

/-! ## Claims C4, C6, C7, C10 -/

/-- Claim C4 (amended): the merge-preserve rule holds at the completion-time
finalization site: when GET /video-status finalizes a completed generation whose
pending-image metadata is absent (so the incoming record carries no `imageUrl`)
and the existing record has a truthy `imageUrl`, the persisted record keeps the
previously known `imageUrl`.  (The submission-time preliminary write has no such
rule: see the counterexample.) -/
theorem claim_C4_thm (st : ServerState) (gid v now u : String) (old : VideoRecord)
    (describe : Option String → String)
    (hgid : gid ≠ "") (hmd : assocGet st.uploaded gid = none)
    (hfind : findFirst st.videos gid = some old) (hold : old.imageUrl = some u) (hu : u ≠ "") :
    ∃ r2, findFirst (videoStatusStep st gid ⟨"completed", some v, none⟩ now describe).1.videos gid = some r2 ∧
      r2.imageUrl = some u := by
  have hstep : (videoStatusStep st gid ⟨"completed", some v, none⟩ now describe).1.videos =
      applyFinal st.videos (finalVideoRecord none (findFirst st.videos gid) none gid v now describe) := by
    simp [videoStatusStep, hgid, hmd, preSaveStep]
  rw [hstep]
  have hr : truthyS (finalVideoRecord none (findFirst st.videos gid) none gid v now describe).imageUrl = false := by
    simp [finalVideoRecord, truthyS]
  have hid : (finalVideoRecord none (findFirst st.videos gid) none gid v now describe).id = gid := rfl
  have := applyFinal_keeps_imageUrl st.videos
    (finalVideoRecord none (findFirst st.videos gid) none gid v now describe) old u
    (by rw [hid]; exact hfind) hold hu hr
  rwa [hid] at this

/-- Witness for C4 at a concrete input. -/
theorem claim_C4_wit :
    ∃ r2, findFirst (videoStatusStep
        ⟨[⟨"g1", none, none, some "/x.jpg", "t", "c", none, "p", none, none, "T0"⟩], [], []⟩
        "g1" ⟨"completed", some "http://v/a.mp4", none⟩ "T1" (fun _ => "d")).1.videos "g1" = some r2 ∧
      r2.imageUrl = some "/x.jpg" :=
  claim_C4_thm ⟨[⟨"g1", none, none, some "/x.jpg", "t", "c", none, "p", none, none, "T0"⟩], [], []⟩
    "g1" "http://v/a.mp4" "T1" "/x.jpg"
    ⟨"g1", none, none, some "/x.jpg", "t", "c", none, "p", none, none, "T0"⟩
    (fun _ => "d") (by decide) (by decide) (by decide) (by decide) (by decide)

/-- Counterexample to C4 as stated: at the submission-time preliminary write the
merge-preserve rule does not hold.  A record for `gid1` with `imageUrl "/x.jpg"`
exists; a new submission for the same id carries an image whose save fails
(`"data:image/png"` passes the `startsWith` guard but not the data-URI regex), so
the preliminary record supplies `imageUrl: null` — and the spread overwrites the
previously known `"/x.jpg"` with `null`. -/
theorem claim_C4_cx :
    (generateVideoStep
        ⟨[⟨"gid1", none, none, some "/x.jpg", "t", "c", none, "old prompt", none, none, "T0"⟩], [], []⟩
        ⟨some "a lovely sunrise above hills", some "data:image/png", none, none, none⟩
        (.ok "gid1") "T1").1.videos.map (fun r => r.imageUrl) = [none] := by decide

/-- Claim C6 (amended): for every successful video submission that supplied a
(`data:image/`-prefixed) image, a preliminary record for the returned generation
id is upserted into the Record Store immediately (within the submission handler,
hence before any status poll), with `url` still null, the submission timestamp,
and `originalPrompt` carrying the (possibly enhanced) submission prompt; the
backing file is written once.  (A submission without an image writes no record:
see the counterexample.) -/
theorem claim_C6_thm (st : ServerState) (req : GenVideoReq) (gid now : String)
    (hp : truthyS req.prompt = true) (himg : truthyS req.image = true)
    (hstart : startsWithStr (req.image.getD "") "data:image/" = true) :
    (generateVideoStep st req (.ok gid) now).2.1 = 1 ∧
    ∃ r, findFirst (generateVideoStep st req (.ok gid) now).1.videos gid = some r ∧
      r.id = gid ∧ r.url = none ∧ r.timestamp = now ∧
      r.originalPrompt = some (videoPromptOf (req.prompt.getD "")) := by
  obtain ⟨img, himg_eq⟩ : ∃ i, req.image = some i := by
    cases h : req.image
    · rw [h] at himg; simp [truthyS] at himg
    · exact ⟨_, rfl⟩
  have himg_ne : img ≠ "" := by
    rw [himg_eq] at himg; simpa [truthyS] using himg
  rw [himg_eq] at hstart
  simp only [Option.getD_some] at hstart
  have hv : (generateVideoStep st req (.ok gid) now).1.videos =
      applyPrelim st.videos (prelimVideoRecordOf req
        (deriveVideoClient req (videoPromptOf (req.prompt.getD "")))
        (videoPromptOf (req.prompt.getD "")) (saveImageToDisk img gid now) gid now) := by
    simp [generateVideoStep, hp, himg_eq, himg_ne, hstart, truthyS_some]
  have hn : (generateVideoStep st req (.ok gid) now).2.1 = 1 := by
    simp [generateVideoStep, hp, himg_eq, himg_ne, hstart, truthyS_some]
  refine ⟨hn, ?_⟩
  rw [hv]
  obtain ⟨r', hf, hid, hurl, himgu, htitle, hprompt, horig, hts⟩ :=
    findFirst_applyPrelim st.videos (prelimVideoRecordOf req
      (deriveVideoClient req (videoPromptOf (req.prompt.getD "")))
      (videoPromptOf (req.prompt.getD "")) (saveImageToDisk img gid now) gid now)
  simp only [prelimVideoRecordOf] at hf hid hurl horig hts
  exact ⟨r', hf, hid, hurl, hts, horig⟩

/-- Witness for C6 at a concrete input. -/
theorem claim_C6_wit :
    (generateVideoStep ⟨[], [], []⟩
      ⟨some "a calm mountain lake at dawn", some "data:image/png;base64,AAAA", none, none, none⟩
      (.ok "gid1") "T1").2.1 = 1 ∧
    ∃ r, findFirst (generateVideoStep ⟨[], [], []⟩
      ⟨some "a calm mountain lake at dawn", some "data:image/png;base64,AAAA", none, none, none⟩
      (.ok "gid1") "T1").1.videos "gid1" = some r ∧
      r.id = "gid1" ∧ r.url = none ∧ r.timestamp = "T1" ∧
      r.originalPrompt = some (videoPromptOf ((some "a calm mountain lake at dawn" : Option String).getD "")) :=
  claim_C6_thm ⟨[], [], []⟩
    ⟨some "a calm mountain lake at dawn", some "data:image/png;base64,AAAA", none, none, none⟩
    "gid1" "T1" (by decide) (by decide) (by decide)

/-- Counterexample to C6 as stated: a successful video submission WITHOUT an
image writes no record at all (the preliminary write sits inside `if (image)`,
src/server.js line 389), so "for every successful submission" fails; here the
submission succeeds yet the store stays empty and the file is never written. -/
theorem claim_C6_cx :
    generateVideoStep ⟨[], [], []⟩ ⟨some "hello world baby", none, none, none, none⟩
      (.ok "gid1") "T1" = (⟨[], [], []⟩, 0, .ok ⟨"gid1", "hello world baby", none⟩) := by decide

/-- Claim C7: a submission whose prompt is absent or empty fails with the 400
`Prompt is required` error on both submission endpoints, and the whole server
state (in particular the Record Store) is untouched, with no file write. -/
theorem claim_C7_thm (st : ServerState) (req : GenVideoReq)
    (adapter : Except String String) (oracle : Nat → AttemptOut) (now : String)
    (h : truthyS req.prompt = false) :
    generateVideoStep st req adapter now = (st, 0, .error ⟨400, "Prompt is required"⟩) ∧
    generateImageStep st req oracle now = (st, 0, .error ⟨400, "Prompt is required"⟩) := by
  constructor
  · simp [generateVideoStep, h]
  · simp [generateImageStep, h]

/-- Witness for C7 at a concrete input. -/
theorem claim_C7_wit :
    generateVideoStep ⟨[], [], []⟩ ⟨none, none, none, none, none⟩ (.ok "g") "T" =
      (⟨[], [], []⟩, 0, .error ⟨400, "Prompt is required"⟩) ∧
    generateImageStep ⟨[], [], []⟩ ⟨none, none, none, none, none⟩ (fun _ => .ok "g") "T" =
      (⟨[], [], []⟩, 0, .error ⟨400, "Prompt is required"⟩) :=
  claim_C7_thm ⟨[], [], []⟩ ⟨none, none, none, none, none⟩ (.ok "g") (fun _ => .ok "g") "T"
    (by decide)

/-- Claim C10: a video-status poll that observes remote state `completed` with no
video asset neither writes nor updates any record (the `generatedVideos` array is
unchanged), never calls `saveVideosToFile`, and still answers with state
`completed`. -/
theorem claim_C10_thm (st : ServerState) (gid : String) (status : RemoteStatus)
    (now : String) (describe : Option String → String)
    (hgid : gid ≠ "") (hstate : status.state = "completed") (hvideo : status.video = none) :
    (videoStatusStep st gid status now describe).1.videos = st.videos ∧
    (videoStatusStep st gid status now describe).2.1 = 0 ∧
    ∃ resp, (videoStatusStep st gid status now describe).2.2 = .ok resp ∧
      resp.state = "completed" := by
  obtain ⟨s, v, f⟩ := status
  simp only at hstate hvideo
  subst hstate; subst hvideo
  refine ⟨?_, ?_, ?_⟩
  · simp [videoStatusStep, hgid]
  · simp [videoStatusStep, hgid]
  · simp only [videoStatusStep, hgid, if_neg, if_pos, reduceIte]
    exact ⟨_, rfl, rfl⟩

/-- Witness for C10 at a concrete input. -/
theorem claim_C10_wit :
    (videoStatusStep ⟨[], [], []⟩ "g" ⟨"completed", none, none⟩ "T" (fun _ => "d")).1.videos =
      (⟨[], [], []⟩ : ServerState).videos ∧
    (videoStatusStep ⟨[], [], []⟩ "g" ⟨"completed", none, none⟩ "T" (fun _ => "d")).2.1 = 0 ∧
    ∃ resp, (videoStatusStep ⟨[], [], []⟩ "g" ⟨"completed", none, none⟩ "T" (fun _ => "d")).2.2 =
      .ok resp ∧ resp.state = "completed" :=
  claim_C10_thm ⟨[], [], []⟩ "g" ⟨"completed", none, none⟩ "T" (fun _ => "d")
    (by decide) rfl rfl

/-! ## Claims C1 and C5 -/

/-- The completion-time record's `prompt` field can never match the
inline-image-data pattern: every branch is either guarded by
`!isBase64ImagePrompt` or a fixed sentinel. -/
theorem finalPromptOf_not_base64 (md : Option ImageMeta) :
    isBase64ImagePrompt (finalPromptOf md) = false := by
  rcases md with _ | md
  · decide
  · have hred : finalPromptOf (some md) =
        (if truthyS md.originalPrompt ∧ ¬ isBase64ImagePrompt (md.originalPrompt.getD "") then
          md.originalPrompt.getD ""
        else if truthyS md.prompt then
          (if isBase64ImagePrompt (md.prompt.getD "") then "Image-based prompt" else md.prompt.getD "")
        else "No prompt available") := rfl
    rw [hred]
    by_cases h1 : truthyS md.originalPrompt = true ∧ ¬ isBase64ImagePrompt (md.originalPrompt.getD "") = true
    · rw [if_pos h1]
      simpa using h1.2
    · rw [if_neg h1]
      by_cases h2 : truthyS md.prompt = true
      · rw [if_pos h2]
        by_cases h3 : isBase64ImagePrompt (md.prompt.getD "") = true
        · rw [if_pos h3]; decide
        · rw [if_neg h3]; simpa using h3
      · rw [if_neg h2]; decide

/-- The preliminary record's `prompt` field can never match the
inline-image-data pattern. -/
theorem prelim_prompt_not_base64 (req : GenVideoReq) (c p : String)
    (saved : Option SavedImage) (gid now : String) :
    isBase64ImagePrompt (prelimVideoRecordOf req c p saved gid now).prompt = false := by
  show isBase64ImagePrompt (if ¬ isBase64ImagePrompt p then p else "Image-based prompt") = false
  by_cases h : isBase64ImagePrompt p = true
  · rw [if_neg (by simp [h])]; decide
  · rw [if_pos (by simp [h])]; simpa using h

/-- The Record Store content written by a completed video-status poll. -/
theorem videoStatusStep_completed_videos (st : ServerState) (gid v now : String)
    (f : Option String) (describe : Option String → String) (hgid : gid ≠ "") :
    (videoStatusStep st gid ⟨"completed", some v, f⟩ now describe).1.videos =
      applyFinal st.videos (finalVideoRecord (assocGet st.uploaded gid)
        (findFirst st.videos gid) (preSaveStep st gid now).1 gid v now describe) := by
  simp [videoStatusStep, hgid]

/-- Claim C1 (amended): at the two video-record write sites — the preliminary
write at submission and the finalization at completed status — the persisted or
updated record's `prompt` field never matches the inline-image-data pattern (an
image-bearing prompt is replaced by the sentinel `"Image-based prompt"`).  The
`originalPrompt` field, by contrast, keeps the raw submission prompt, and the
save-image path persists the raw prompt in `prompt`: see the counterexample. -/
theorem claim_C1_thm (st st2 : ServerState) (req : GenVideoReq)
    (gid gid2 now now2 v : String) (f : Option String) (describe : Option String → String)
    (hp : truthyS req.prompt = true) (himg : truthyS req.image = true)
    (hstart : startsWithStr (req.image.getD "") "data:image/" = true)
    (hgid2 : gid2 ≠ "") :
    (∀ r, findFirst (generateVideoStep st req (.ok gid) now).1.videos gid = some r →
      isBase64ImagePrompt r.prompt = false) ∧
    (∀ r, findFirst (videoStatusStep st2 gid2 ⟨"completed", some v, f⟩ now2 describe).1.videos gid2 = some r →
      isBase64ImagePrompt r.prompt = false) := by
  obtain ⟨img, himg_eq⟩ : ∃ i, req.image = some i := by
    cases h : req.image
    · rw [h] at himg; simp [truthyS] at himg
    · exact ⟨_, rfl⟩
  have himg_ne : img ≠ "" := by
    rw [himg_eq] at himg; simpa [truthyS] using himg
  rw [himg_eq] at hstart
  simp only [Option.getD_some] at hstart
  constructor
  · intro r hr
    have hv : (generateVideoStep st req (.ok gid) now).1.videos =
        applyPrelim st.videos (prelimVideoRecordOf req
          (deriveVideoClient req (videoPromptOf (req.prompt.getD "")))
          (videoPromptOf (req.prompt.getD "")) (saveImageToDisk img gid now) gid now) := by
      simp [generateVideoStep, hp, himg_eq, himg_ne, hstart, truthyS_some]
    rw [hv] at hr
    obtain ⟨r', hf, hrest⟩ := findFirst_applyPrelim st.videos (prelimVideoRecordOf req
      (deriveVideoClient req (videoPromptOf (req.prompt.getD "")))
      (videoPromptOf (req.prompt.getD "")) (saveImageToDisk img gid now) gid now)
    have hf' : findFirst (applyPrelim st.videos (prelimVideoRecordOf req
        (deriveVideoClient req (videoPromptOf (req.prompt.getD "")))
        (videoPromptOf (req.prompt.getD "")) (saveImageToDisk img gid now) gid now)) gid =
        some r' := hf
    rw [hf'] at hr
    obtain rfl : r' = r := Option.some.inj hr
    rw [hrest.2.2.2.2.1]
    exact prelim_prompt_not_base64 req _ _ _ gid now
  · intro r hr
    rw [videoStatusStep_completed_videos st2 gid2 v now2 f describe hgid2] at hr
    obtain ⟨r', hf, hid, hurl, hprompt, hts⟩ := findFirst_applyFinal st2.videos
      (finalVideoRecord (assocGet st2.uploaded gid2) (findFirst st2.videos gid2)
        (preSaveStep st2 gid2 now2).1 gid2 v now2 describe)
    have hf' : findFirst (applyFinal st2.videos
        (finalVideoRecord (assocGet st2.uploaded gid2) (findFirst st2.videos gid2)
          (preSaveStep st2 gid2 now2).1 gid2 v now2 describe)) gid2 = some r' := hf
    rw [hf'] at hr
    obtain rfl : r' = r := Option.some.inj hr
    rw [hprompt]
    exact finalPromptOf_not_base64 _

/-- Witness for C1 at a concrete input: the record actually written by a
base64-prompt submission carries the sentinel prompt, which is not image data. -/
theorem claim_C1_wit :
    isBase64ImagePrompt (⟨"gid1", none, none, some "/saved_images/gid1_T1.jpg", "Untitled-gid1",
      "AI ABSTRACTIONS", some "#f0f4ff", "Image-based prompt",
      some "data:image/png;base64,AAAA", none, "T1"⟩ : VideoRecord).prompt = false :=
  (claim_C1_thm ⟨[], [], []⟩ ⟨[], [], []⟩
    ⟨some "data:image/png;base64,AAAA", some "data:image/png;base64,BBBB", none, none, none⟩
    "gid1" "g2" "T1" "T2" "http://v" none (fun _ => "d")
    (by decide) (by decide) (by decide) (by decide)).1
    ⟨"gid1", none, none, some "/saved_images/gid1_T1.jpg", "Untitled-gid1", "AI ABSTRACTIONS",
      some "#f0f4ff", "Image-based prompt", some "data:image/png;base64,AAAA", none, "T1"⟩
    (by decide)

/-- Counterexample to C1 as stated: (a) the preliminary write persists the raw
base64 data URI in `originalPrompt` (src/server.js line 425 keeps "a backup of
the original prompt"); (b) the save-image operation persists the raw base64
prompt in the `prompt` field itself (line 808).  Both refute the invariant that
`prompt`/`originalPrompt` never hold inline image data in persisted form. -/
theorem claim_C1_cx :
    ((generateVideoStep ⟨[], [], []⟩
        ⟨some "data:image/png;base64,AAAA", some "data:image/png;base64,BBBB", none, none, none⟩
        (.ok "gid1") "T1").1.videos.map (fun r => r.originalPrompt) =
      [some "data:image/png;base64,AAAA"]) ∧
    isBase64ImagePrompt "data:image/png;base64,AAAA" = true ∧
    ((saveImageStep ⟨[], [], []⟩
        ⟨some "data:image/png;base64,AAAA", some "data:image/png;base64,BBBB", none, none⟩
        "img-1" "T1").1.videos.map (fun r => r.prompt) = ["data:image/png;base64,AAAA"]) := by
  decide

/-- Claim C5: the image-generation retry loop retries only on moderation-style
rejections, with a total bound of three attempts; attempt 2 sends the sanitized
prompt, attempt 3 sends the fixed generic fallback prompt with the
image-reference weight reduced to 0.5 (when a reference is present); a
non-moderation error aborts at once with no further attempts; and a success on
the third attempt is reported with `attempts = 3` and the fallback prompt as the
prompt actually sent. -/
theorem claim_C5_thm (p0 : ImageGenParams) (oracle oracle2 : Nat → AttemptOut)
    (g m1 m2 m : String)
    (h1 : oracle 1 = .err m1) (hm1 : isModerationMsg m1 = true)
    (h2 : oracle 2 = .err m2) (hm2 : isModerationMsg m2 = true)
    (h3 : oracle 3 = .ok g)
    (hn1 : oracle2 1 = .err m) (hnm : isModerationMsg m = false) :
    imageAttemptLoop oracle p0 =
      (.success g 3, [p0, { p0 with prompt := sanitizePrompt p0.prompt },
        { prompt := "A beautiful digital artwork", refWeight := p0.refWeight.map (fun _ => 50) }]) ∧
    imageAttemptLoop oracle2 p0 = (.thrown m 1, [p0]) ∧
    (∀ (st : ServerState) (req : GenVideoReq) (now : String),
      req.prompt = some p0.prompt → p0.prompt ≠ "" → req.image = none → p0.refWeight = none →
      ∃ out, (generateImageStep st req oracle now).2.2 = .ok out ∧
        out.attempts = 3 ∧ out.prompt = "A beautiful digital artwork" ∧
        out.generationId = g) := by
  have hl : imageAttemptLoop oracle p0 =
      (.success g 3, [p0, { p0 with prompt := sanitizePrompt p0.prompt },
        { prompt := "A beautiful digital artwork", refWeight := p0.refWeight.map (fun _ => 50) }]) := by
    simp [imageAttemptLoop, h1, hm1, h2, hm2, h3]
  refine ⟨hl, ?_, ?_⟩
  · simp [imageAttemptLoop, hn1, hnm]
  · intro st req now hreq hpne hqimg hw
    have htr : truthyS (some p0.prompt) = true := by simp [truthyS_some, hpne]
    have hp0eta : ({ prompt := p0.prompt, refWeight := none } : ImageGenParams) = p0 := by
      cases p0 with
      | mk pr w => simp only at hw; rw [hw]
    simp only [generateImageStep, hreq, htr, hqimg, imageRefParams, Option.getD_some,
      Bool.not_eq_true, Bool.true_eq_false, reduceIte]
    rw [hp0eta, hl]
    exact ⟨_, rfl, rfl, rfl, rfl⟩

/-- Witness for C5 at concrete inputs: two moderation rejections then success
gives attempts 3 and the generic fallback prompt; a rate-limit error aborts at
attempt 1. -/
theorem claim_C5_wit :
    imageAttemptLoop
      (fun n => if n = 1 then .err "flagged by moderation" else
        if n = 2 then .err "safety system rejected it" else .ok "g9")
      ⟨"a gun on a table", none⟩ =
      (.success "g9" 3, [⟨"a gun on a table", none⟩,
        ⟨sanitizePrompt "a gun on a table", none⟩,
        ⟨"A beautiful digital artwork", (none : Option Nat).map (fun _ => 50)⟩]) ∧
    imageAttemptLoop (fun _ => .err "rate limit exceeded") ⟨"a gun on a table", none⟩ =
      (.thrown "rate limit exceeded" 1, [⟨"a gun on a table", none⟩]) ∧
    (∀ (st : ServerState) (req : GenVideoReq) (now : String),
      req.prompt = some (⟨"a gun on a table", none⟩ : ImageGenParams).prompt →
      (⟨"a gun on a table", none⟩ : ImageGenParams).prompt ≠ "" → req.image = none →
      (⟨"a gun on a table", none⟩ : ImageGenParams).refWeight = none →
      ∃ out, (generateImageStep st req
        (fun n => if n = 1 then .err "flagged by moderation" else
          if n = 2 then .err "safety system rejected it" else .ok "g9") now).2.2 = .ok out ∧
        out.attempts = 3 ∧ out.prompt = "A beautiful digital artwork" ∧
        out.generationId = "g9") :=
  claim_C5_thm ⟨"a gun on a table", none⟩
    (fun n => if n = 1 then .err "flagged by moderation" else
      if n = 2 then .err "safety system rejected it" else .ok "g9")
    (fun _ => .err "rate limit exceeded")
    "g9" "flagged by moderation" "safety system rejected it" "rate limit exceeded"
    rfl (by decide) rfl (by decide) rfl rfl (by decide)

/-! ## Claim C3: the prompt enhancer -/

theorem toLowerStr_length (s : String) : (toLowerStr s).length = s.length := by
  show (s.data.map Char.toLower).length = s.data.length
  exact List.length_map s.data Char.toLower

/-- Every table expansion is strictly longer than its key. -/
theorem promptTable_expands : ∀ kv ∈ promptTable, kv.1.length < kv.2.length := by decide

theorem tableLookCI_mem (tbl : List (String × String)) (p v : String)
    (h : tableLookCI tbl p = some v) : ∃ kv ∈ tbl, kv.2 = v ∧ toLowerStr p = kv.1 := by
  induction tbl with
  | nil => simp [tableLookCI] at h
  | cons kv rest ih =>
    obtain ⟨k, w⟩ := kv
    by_cases hk : toLowerStr p = k
    · have hv : w = v := by simpa [tableLookCI, hk] using h
      exact ⟨(k, w), by simp, hv, hk⟩
    · obtain ⟨kv', hmem, hv, hkk⟩ := ih (by simpa [tableLookCI, hk] using h)
      exact ⟨kv', by simp [hmem], hv, hkk⟩

theorem genericTemplateOf_length_gt (p : String) : p.length < (genericTemplateOf p).length := by
  unfold genericTemplateOf
  rw [String.length_append, String.length_append]
  have h1 : ("A cinematic, detailed view of " : String).length = 30 := by decide
  omega

/-- Claim C3 (amended): for every video submission whose trimmed prompt is
shorter than 10 characters AND whose raw prompt length is at most 30 (so the
enhancer's identity-above-30 guard cannot fire), the prompt is replaced by the
Prompt Enhancer's result, which is strictly longer than the input and equal to
either a fixed lookup-table entry (case-insensitive exact match) or the generic
template, and the submission proceeds with the enhanced prompt. -/
theorem claim_C3_thm (st : ServerState) (req : GenVideoReq) (gid now p : String)
    (hreq : req.prompt = some p) (hpne : p ≠ "") (himg : req.image = none)
    (hshort : (trimStr p).length < 10) (hlen : p.length ≤ 30) :
    p.length < (enhancePrompt p).length ∧
    ((∃ kv ∈ promptTable, enhancePrompt p = kv.2) ∨ enhancePrompt p = genericTemplateOf p) ∧
    (∃ out, (generateVideoStep st req (.ok gid) now).2.2 = .ok out ∧
      out.submittedPrompt = enhancePrompt p) := by
  have hng : ¬ p.length > 30 := by omega
  have henh : enhancePrompt p =
      (match tableLookCI promptTable p with
       | some v => v
       | none => genericTemplateOf p) := by
    unfold enhancePrompt
    rw [if_neg hng]
  refine ⟨?_, ?_, ?_⟩
  · rw [henh]
    cases hl : tableLookCI promptTable p with
    | some v =>
      obtain ⟨kv, hmem, hv, hkk⟩ := tableLookCI_mem promptTable p v hl
      have h1 : p.length = kv.1.length := by
        rw [← toLowerStr_length p, hkk]
      have h2 := promptTable_expands kv hmem
      have hred : (match some v with
        | some w => w
        | none => genericTemplateOf p) = v := rfl
      rw [hred, h1, ← hv]
      exact h2
    | none => exact genericTemplateOf_length_gt p
  · rw [henh]
    cases hl : tableLookCI promptTable p with
    | some v =>
      obtain ⟨kv, hmem, hv, _⟩ := tableLookCI_mem promptTable p v hl
      exact Or.inl ⟨kv, hmem, hv.symm⟩
    | none => exact Or.inr rfl
  · have htr : truthyS req.prompt = true := by rw [hreq]; simp [truthyS_some, hpne]
    have hvp : videoPromptOf p = enhancePrompt p := by
      unfold videoPromptOf
      rw [if_pos hshort]
    have h2 : (generateVideoStep st req (.ok gid) now).2.2 =
        .ok { generationId := gid, submittedPrompt := videoPromptOf p, imageUrl := none } := by
      simp [generateVideoStep, hreq, himg, truthyS_none, truthyS_some, hpne]
    exact ⟨_, h2, hvp⟩

/-- Witness for C3 at the spec's own scenario prompt `beach`. -/
theorem claim_C3_wit :
    ("beach" : String).length < (enhancePrompt "beach").length ∧
    ((∃ kv ∈ promptTable, enhancePrompt "beach" = kv.2) ∨
      enhancePrompt "beach" = genericTemplateOf "beach") ∧
    (∃ out, (generateVideoStep ⟨[], [], []⟩ ⟨some "beach", none, none, none, none⟩
      (.ok "g1") "T1").2.2 = .ok out ∧ out.submittedPrompt = enhancePrompt "beach") :=
  claim_C3_thm ⟨[], [], []⟩ ⟨some "beach", none, none, none, none⟩ "g1" "T1" "beach"
    rfl (by decide) rfl (by decide) (by decide)

/-- Counterexample to C3 as stated: a prompt of 31 spaces followed by `cat`
has trimmed length 3 (< 10), so the enhancer is invoked, but its raw length 34
exceeds the enhancer's identity threshold of 30, so the enhancer returns the
input unchanged — not a strictly longer string. -/
theorem claim_C3_cx :
    (trimStr "                               cat").length < 10 ∧
    enhancePrompt "                               cat" = "                               cat" ∧
    ¬ ("                               cat" : String).length <
      (enhancePrompt "                               cat").length := by decide

/-! ## Claim C9: the Disk Image Store's parser -/

theorem charsLeads_iff_append (p : List Char) :
    ∀ cs, charsLeads p cs = true ↔ ∃ t, cs = p ++ t := by
  induction p with
  | nil => intro cs; simp [charsLeads]
  | cons a ps ih =>
    intro cs
    cases cs with
    | nil => simp [charsLeads]
    | cons c cs' =>
      simp only [charsLeads, Bool.and_eq_true, decide_eq_true_eq, ih, List.cons_append,
        List.cons.injEq]
      constructor
      · rintro ⟨rfl, t, rfl⟩; exact ⟨t, rfl, rfl⟩
      · rintro ⟨t, rfl, rfl⟩; exact ⟨rfl, t, rfl⟩

theorem takeWhile_append_stop (p : Char → Bool) (m rest : List Char)
    (hm : ∀ c ∈ m, p c = true)
    (hr : ∀ c, rest.head? = some c → p c = false) :
    (m ++ rest).takeWhile p = m ∧ (m ++ rest).dropWhile p = rest := by
  induction m with
  | nil =>
    simp only [List.nil_append]
    cases rest with
    | nil => simp
    | cons c rs =>
      have := hr c rfl
      simp [List.takeWhile, List.dropWhile, this]
  | cons a ms ih =>
    have ha : p a = true := hm a (by simp)
    have hms : ∀ c ∈ ms, p c = true := fun c hc => hm c (by simp [hc])
    obtain ⟨h1, h2⟩ := ih hms
    simp [List.takeWhile, List.dropWhile, ha, h1, h2]

/-- Soundness: when the embedded regex matcher succeeds, the string really has
the claimed decomposition. -/
theorem dataUriSplit_sound (s : String) (m d : List Char)
    (h : dataUriSplit s.data = some (m, d)) : isDataUriDecomp s m d := by
  unfold dataUriSplit at h
  by_cases h5 : charsLeads "data:".data s.data = true
  · rw [if_pos h5] at h
    obtain ⟨t, ht⟩ := (charsLeads_iff_append "data:".data s.data).1 h5
    have hdrop : s.data.drop 5 = t := by
      rw [ht]
      exact List.drop_left "data:".data t
    rw [hdrop] at h
    by_cases h6 : t.takeWhile mimeChar ≠ [] ∧ charsLeads ";base64,".data (t.dropWhile mimeChar) = true
    · rw [if_pos h6] at h
      obtain ⟨t2, ht2⟩ := (charsLeads_iff_append ";base64,".data (t.dropWhile mimeChar)).1 h6.2
      have hdrop2 : (t.dropWhile mimeChar).drop 8 = t2 := by
        rw [ht2]
        exact List.drop_left ";base64,".data t2
      rw [hdrop2] at h
      by_cases h7 : t2 ≠ [] ∧ t2.all (fun c => ¬ lineTermChar c) = true
      · rw [if_pos h7] at h
        obtain ⟨hm, hd⟩ := Prod.mk.injEq .. ▸ Option.some.inj h
        subst hm; subst hd
        refine ⟨?_, h6.1, ?_, h7.1, ?_⟩
        · have hteq : t = List.takeWhile mimeChar t ++ (";base64,".data ++ t2) := by
            conv_lhs => rw [← List.takeWhile_append_dropWhile mimeChar t]
            rw [ht2]
          rw [ht]
          conv_lhs => rw [hteq]
          simp [List.append_assoc]
        · exact fun c hc => List.mem_takeWhile_imp hc
        · intro c hc
          have := (List.all_eq_true.1 h7.2) c hc
          simpa using this
      · rw [if_neg h7] at h; exact absurd h (by simp)
    · rw [if_neg h6] at h; exact absurd h (by simp)
  · rw [if_neg h5] at h; exact absurd h (by simp)

/-- Completeness: every string with the decomposition is accepted by the
embedded matcher, with exactly that decomposition (the MIME class excludes `;`,
so the greedy run is unambiguous). -/
theorem dataUriSplit_complete (s : String) (m d : List Char)
    (h : isDataUriDecomp s m d) : dataUriSplit s.data = some (m, d) := by
  obtain ⟨hs, hm, hmc, hd, hdc⟩ := h
  unfold dataUriSplit
  have h5 : charsLeads "data:".data s.data = true :=
    (charsLeads_iff_append "data:".data s.data).2 ⟨m ++ ";base64,".data ++ d, by
      rw [hs]; simp [List.append_assoc]⟩
  rw [if_pos h5]
  have hdrop : s.data.drop 5 = m ++ (";base64,".data ++ d) := by
    rw [hs]
    have : "data:".data ++ m ++ ";base64,".data ++ d =
        "data:".data ++ (m ++ (";base64,".data ++ d)) := by simp [List.append_assoc]
    rw [this]
    exact List.drop_left "data:".data _
  rw [hdrop]
  have hstop : ∀ c, (";base64,".data ++ d).head? = some c → mimeChar c = false := by
    intro c hc
    have hcc : ';' = c := by simpa using hc
    subst hcc
    decide
  obtain ⟨htake, hdropw⟩ := takeWhile_append_stop mimeChar m (";base64,".data ++ d) hmc hstop
  have hdrop8 : (";base64,".data ++ d).drop 8 = d := List.drop_left ";base64,".data d
  simp only [htake, hdropw, hdrop8]
  have h6 : charsLeads ";base64,".data (";base64,".data ++ d) = true :=
    (charsLeads_iff_append _ _).2 ⟨d, rfl⟩
  rw [if_pos ⟨hm, h6⟩]
  have hall : d.all (fun c => ¬ lineTermChar c) = true := by
    rw [List.all_eq_true]
    intro c hc
    simpa using hdc c hc
  rw [if_pos ⟨hd, hall⟩]

/-- Claim C9: `saveImageToDisk` is total and never raises to its caller — for
every input that does not decompose as `data:<mime>;base64,<data>` (MIME
non-empty over the regex class, data non-empty with no line terminator) it
returns the null failure value, and for every input that does decompose it
returns a URL of the form `/saved_images/` + idHint + `_` + cleaned timestamp +
`.jpg`, whose extension is `.jpg` regardless of the declared MIME type. -/
theorem claim_C9_thm (s generationId ts : String) :
    ((∀ m d, ¬ isDataUriDecomp s m d) → saveImageToDisk s generationId ts = none) ∧
    (∀ m d, isDataUriDecomp s m d →
      ∃ r, saveImageToDisk s generationId ts = some r ∧
        r.url = "/saved_images/" ++ generationId ++ "_" ++ tsClean ts ++ ".jpg" ∧
        ∃ pre, r.url = pre ++ ".jpg") := by
  constructor
  · intro hno
    unfold saveImageToDisk
    cases hsplit : dataUriSplit s.data with
    | none => rfl
    | some md =>
      obtain ⟨m, d⟩ := md
      exact absurd (dataUriSplit_sound s m d hsplit) (hno m d)
  · intro m d hdec
    have hsplit := dataUriSplit_complete s m d hdec
    refine ⟨⟨"/saved_images/" ++ (generationId ++ "_" ++ tsClean ts ++ "." ++ "jpg"),
      (⟨m⟩ : String), generationId ++ "_" ++ tsClean ts ++ "." ++ "jpg"⟩, ?_, ?_, ?_⟩
    · unfold saveImageToDisk
      rw [hsplit]
    · show "/saved_images/" ++ (generationId ++ "_" ++ tsClean ts ++ "." ++ "jpg") =
        "/saved_images/" ++ generationId ++ "_" ++ tsClean ts ++ ".jpg"
      simp only [String.append_assoc]
      exact congrArg (fun z => "/saved_images/" ++ (generationId ++ ("_" ++ (tsClean ts ++ z))))
        (rfl : ("." : String) ++ "jpg" = ".jpg")
    · exact ⟨"/saved_images/" ++ (generationId ++ "_" ++ tsClean ts), by
        show "/saved_images/" ++ (generationId ++ "_" ++ tsClean ts ++ "." ++ "jpg") =
          "/saved_images/" ++ (generationId ++ "_" ++ tsClean ts) ++ ".jpg"
        simp only [String.append_assoc]
        exact congrArg (fun z => "/saved_images/" ++ (generationId ++ ("_" ++ (tsClean ts ++ z))))
          (rfl : ("." : String) ++ "jpg" = ".jpg")⟩

/-- Witness for C9: a malformed input yields `none`; a well-formed PNG data URI
yields the `.jpg`-suffixed URL. -/
theorem claim_C9_wit :
    saveImageToDisk "nope" "g" "TS" = none ∧
    (∃ r, saveImageToDisk "data:image/png;base64,AAAA" "g" "TS" = some r ∧
      r.url = "/saved_images/" ++ "g" ++ "_" ++ tsClean "TS" ++ ".jpg" ∧
      ∃ pre, r.url = pre ++ ".jpg") := by
  constructor
  · refine (claim_C9_thm "nope" "g" "TS").1 (fun m d hd => ?_)
    have hcontra := dataUriSplit_complete "nope" m d hd
    rw [show dataUriSplit "nope".data = none from by decide] at hcontra
    exact Option.noConfusion hcontra
  · exact (claim_C9_thm "data:image/png;base64,AAAA" "g" "TS").2 "image/png".data "AAAA".data
      ⟨by decide, by decide, by decide, by decide, by decide⟩

/-! ## Claim C8: the moderation sanitizer -/

theorem collapseSpAux_true_head (cs : List Char) :
    ∀ c, (collapseSpAux true cs).head? = some c → c ≠ ' ' := by
  induction cs with
  | nil => intro c h; simp [collapseSpAux] at h
  | cons a rest ih =>
    intro c h
    by_cases ha : a = ' '
    · rw [show collapseSpAux true (a :: rest) = collapseSpAux true rest by
        simp [collapseSpAux, ha]] at h
      exact ih c h
    · rw [show collapseSpAux true (a :: rest) = a :: collapseSpAux false rest by
        simp [collapseSpAux, ha]] at h
      simp only [List.head?_cons, Option.some.injEq] at h
      subst h; exact ha

theorem noTwoSp_collapseSpAux (cs : List Char) :
    ∀ b, ¬ ([' ', ' '] <:+: collapseSpAux b cs) := by
  induction cs with
  | nil => intro b h; simp [collapseSpAux] at h
  | cons a rest ih =>
    intro b
    by_cases ha : a = ' '
    · subst ha
      cases b with
      | true =>
        rw [show collapseSpAux true (' ' :: rest) = collapseSpAux true rest by
          simp [collapseSpAux]]
        exact ih true
      | false =>
        rw [show collapseSpAux false (' ' :: rest) = ' ' :: collapseSpAux true rest by
          simp [collapseSpAux]]
        intro h
        rw [List.infix_cons_iff] at h
        rcases h with hpre | hinf
        · obtain ⟨t, ht⟩ := hpre
          simp only [List.cons_append, List.cons.injEq] at ht
          have hhead : (collapseSpAux true rest).head? = some ' ' := by
            rw [← ht.2]; rfl
          exact collapseSpAux_true_head rest ' ' hhead rfl
        · exact ih true hinf
    · rw [show collapseSpAux b (a :: rest) = a :: collapseSpAux false rest by
        simp [collapseSpAux, ha]]
      intro h
      rw [List.infix_cons_iff] at h
      rcases h with hpre | hinf
      · obtain ⟨t, ht⟩ := hpre
        simp only [List.cons_append, List.cons.injEq] at ht
        exact ha ht.1.symm
      · exact ih false hinf

theorem noTwoSp_suffix {l l' : List Char} (h : l' <:+ l) (hn : ¬ ([' ', ' '] <:+: l)) :
    ¬ ([' ', ' '] <:+: l') := fun hi => hn (hi.trans h.isInfix)

theorem noTwoSp_reverse {l : List Char} (hn : ¬ ([' ', ' '] <:+: l)) :
    ¬ ([' ', ' '] <:+: l.reverse) := by
  intro h
  apply hn
  have h2 : ([' ', ' '] : List Char).reverse <:+: l.reverse := by simpa using h
  exact List.reverse_infix.1 h2

theorem noTwoSp_trimL {l : List Char} (hn : ¬ ([' ', ' '] <:+: l)) :
    ¬ ([' ', ' '] <:+: trimL l) :=
  noTwoSp_reverse (noTwoSp_suffix (List.dropWhile_suffix isWsChar)
    (noTwoSp_reverse (noTwoSp_suffix (List.dropWhile_suffix isWsChar) hn)))

theorem head_dropWhile_not (p : Char → Bool) (l : List Char) :
    ∀ c, (l.dropWhile p).head? = some c → p c = false := by
  induction l with
  | nil => intro c h; simp at h
  | cons a rest ih =>
    intro c h
    by_cases ha : p a = true
    · simp only [List.dropWhile, ha] at h
      exact ih c h
    · simp only [List.dropWhile, ha] at h
      simp only [List.head?_cons, Option.some.injEq] at h
      subst h
      simpa using ha

theorem trimL_head_not_ws (l : List Char) (c : Char) (h : (trimL l).head? = some c) :
    isWsChar c = false := by
  unfold trimL at h
  rw [List.head?_reverse] at h
  have hsplit := List.takeWhile_append_dropWhile isWsChar (l.dropWhile isWsChar).reverse
  have hgl : ((l.dropWhile isWsChar).reverse).getLast? = some c := by
    rw [← hsplit, List.getLast?_append, h]
    rfl
  rw [List.getLast?_reverse] at hgl
  exact head_dropWhile_not isWsChar l c hgl

theorem trimL_getLast_not_ws (l : List Char) (c : Char) (h : (trimL l).getLast? = some c) :
    isWsChar c = false := by
  unfold trimL at h
  rw [List.getLast?_reverse] at h
  exact head_dropWhile_not isWsChar (l.dropWhile isWsChar).reverse c h

/-- Claim C8 (amended): for every non-empty input the sanitizer's result is
non-empty, contains no two consecutive spaces, neither starts nor ends with
whitespace, is the trimmed space-collapsed single-pass blocklist removal of the
input, and equals the fixed generic prompt whenever that removal result is
empty.  (The removal is one left-to-right pass over the ordered alternation;
`kill` shadows `killing` and deletions can splice new blocklist terms, and the
empty input returns the empty string, not the generic prompt: see the
counterexample.) -/
theorem claim_C8_thm (p : String) (hp : p ≠ "") :
    sanitizePrompt p ≠ "" ∧
    ¬ ([' ', ' '] <:+: (sanitizePrompt p).data) ∧
    (∀ c, (sanitizePrompt p).data.head? = some c → isWsChar c = false) ∧
    (∀ c, (sanitizePrompt p).data.getLast? = some c → isWsChar c = false) ∧
    (sanitizePrompt p = "A creative digital artwork" ∨
      sanitizePrompt p = ⟨trimL (collapseSp (stripTerms p.data))⟩) ∧
    (trimL (collapseSp (stripTerms p.data)) = [] →
      sanitizePrompt p = "A creative digital artwork") := by
  have hsan : sanitizePrompt p =
      (if (⟨trimL (collapseSp (stripTerms p.data))⟩ : String) = "" then
        "A creative digital artwork"
      else (⟨trimL (collapseSp (stripTerms p.data))⟩ : String)) := by
    unfold sanitizePrompt
    rw [if_neg hp]
  have hcore_empty : ((⟨trimL (collapseSp (stripTerms p.data))⟩ : String) = "") ↔
      trimL (collapseSp (stripTerms p.data)) = [] := by
    constructor
    · intro h; exact congrArg String.data h
    · intro h; rw [h]
  by_cases hc : trimL (collapseSp (stripTerms p.data)) = []
  · have hfb : sanitizePrompt p = "A creative digital artwork" := by
      rw [hsan, if_pos (hcore_empty.2 hc)]
    rw [hfb]
    refine ⟨by decide, by decide, ?_, ?_, Or.inl rfl, fun _ => rfl⟩
    · intro c h
      have hc' : c = 'A' := by
        rw [show ("A creative digital artwork" : String).data.head? = some 'A' from rfl] at h
        exact (Option.some.inj h).symm
      subst hc'; decide
    · intro c h
      have hc' : c = 'k' := by
        rw [show ("A creative digital artwork" : String).data.getLast? = some 'k' from rfl] at h
        exact (Option.some.inj h).symm
      subst hc'; decide
  · have hne : sanitizePrompt p = (⟨trimL (collapseSp (stripTerms p.data))⟩ : String) := by
      rw [hsan, if_neg (fun h => hc (hcore_empty.1 h))]
    have hnosp : ¬ ([' ', ' '] <:+: trimL (collapseSp (stripTerms p.data))) :=
      noTwoSp_trimL (noTwoSp_collapseSpAux (stripTerms p.data) false)
    rw [hne]
    refine ⟨fun h => hc (hcore_empty.1 h), hnosp, ?_, ?_, Or.inr rfl, fun h => absurd h hc⟩
    · intro c h
      exact trimL_head_not_ws (collapseSp (stripTerms p.data)) c h
    · intro c h
      exact trimL_getLast_not_ws (collapseSp (stripTerms p.data)) c h

/-- Witness for C8 at a concrete input. -/
theorem claim_C8_wit :
    sanitizePrompt "a gun  and   knife " ≠ "" ∧
    ¬ ([' ', ' '] <:+: (sanitizePrompt "a gun  and   knife ").data) ∧
    (∀ c, (sanitizePrompt "a gun  and   knife ").data.head? = some c → isWsChar c = false) ∧
    (∀ c, (sanitizePrompt "a gun  and   knife ").data.getLast? = some c → isWsChar c = false) ∧
    (sanitizePrompt "a gun  and   knife " = "A creative digital artwork" ∨
      sanitizePrompt "a gun  and   knife " =
        ⟨trimL (collapseSp (stripTerms "a gun  and   knife ".data))⟩) ∧
    (trimL (collapseSp (stripTerms "a gun  and   knife ".data)) = [] →
      sanitizePrompt "a gun  and   knife " = "A creative digital artwork") :=
  claim_C8_thm "a gun  and   knife " (by decide)

/-- Counterexample to C8 as stated: (a) the empty input returns the empty
string, not the generic prompt, although the resulting string is empty
(`if (!prompt) return ''` precedes the fallback); (b) the occurrence of the
blocklist term `killing` in the input `killing` is not removed wholesale — the
ordered alternation matches `kill` first, leaving `ing`; (c) on `kikillll` the
single deletion splices the remnants into `kill`, so the output itself is a
blocklist term — the sanitizer does not remove every occurrence of the
blocklist terms in the sense of producing blocklist-free output. -/
theorem claim_C8_cx :
    sanitizePrompt "" = "" ∧ ("" : String) ≠ "A creative digital artwork" ∧
    sanitizePrompt "killing" = "ing" ∧ "killing".data ∈ blockTerms ∧
    sanitizePrompt "kikillll" = "kill" ∧ "kill".data ∈ blockTerms := by decide

/-! ## Claim C2: repeated terminal polls -/

theorem preserveImageUrl_title (old r : VideoRecord) :
    (preserveImageUrl old r).title = r.title := by
  unfold preserveImageUrl; split <;> rfl

theorem preserveImageUrl_client (old r : VideoRecord) :
    (preserveImageUrl old r).client = r.client := by
  unfold preserveImageUrl; split <;> rfl

theorem preserveImageUrl_background (old r : VideoRecord) :
    (preserveImageUrl old r).background = r.background := by
  unfold preserveImageUrl; split <;> rfl

theorem preserveImageUrl_imageDescription (old r : VideoRecord) :
    (preserveImageUrl old r).imageDescription = r.imageDescription := by
  unfold preserveImageUrl; split <;> rfl

theorem preserve_imageUrl_cases (old vr1 : VideoRecord) (hurl : vr1.imageUrl = none) :
    truthyS (preserveImageUrl old vr1).imageUrl = true ∨
      (preserveImageUrl old vr1).imageUrl = none := by
  unfold preserveImageUrl
  split
  case isTrue h => exact Or.inl h.2
  case isFalse h => exact Or.inr hurl

theorem findFirst_eq_none (videos : List VideoRecord) (gid : String) :
    findFirst videos gid = none ↔ ∀ x ∈ videos, x.id ≠ gid := by
  induction videos with
  | nil => simp [findFirst]
  | cons a rest ih =>
    by_cases h : a.id = gid
    · simp [findFirst, h]
    · simp [findFirst, h, ih]

theorem findFirst_some_id (videos : List VideoRecord) (gid : String) (old : VideoRecord)
    (h : findFirst videos gid = some old) : old.id = gid := by
  induction videos with
  | nil => simp [findFirst] at h
  | cons a rest ih =>
    by_cases ha : a.id = gid
    · have : a = old := by simpa [findFirst, ha] using h
      rw [← this]; exact ha
    · exact ih (by simpa [findFirst, ha] using h)

theorem findFirst_append_free (l1 l2 : List VideoRecord) (gid : String)
    (h : ∀ x ∈ l1, x.id ≠ gid) : findFirst (l1 ++ l2) gid = findFirst l2 gid := by
  induction l1 with
  | nil => simp
  | cons a rest ih =>
    have ha : a.id ≠ gid := h a (by simp)
    simp only [List.cons_append, findFirst, if_neg ha]
    exact ih (fun x hx => h x (by simp [hx]))

theorem findFirst_decomp (videos : List VideoRecord) (gid : String) (old : VideoRecord)
    (h : findFirst videos gid = some old) :
    ∃ l1 l2, videos = l1 ++ old :: l2 ∧ ∀ x ∈ l1, x.id ≠ gid := by
  induction videos with
  | nil => simp [findFirst] at h
  | cons a rest ih =>
    by_cases ha : a.id = gid
    · have : a = old := by simpa [findFirst, ha] using h
      subst this
      exact ⟨[], rest, rfl, by simp⟩
    · obtain ⟨l1, l2, hdec, hfree⟩ := ih (by simpa [findFirst, ha] using h)
      exact ⟨a :: l1, l2, by rw [hdec]; simp, by
        intro x hx
        rcases List.mem_cons.1 hx with rfl | hx'
        · exact ha
        · exact hfree x hx'⟩

theorem applyFinal_all_free (videos : List VideoRecord) (r : VideoRecord)
    (h : ∀ x ∈ videos, x.id ≠ r.id) : applyFinal videos r = videos ++ [r] := by
  induction videos with
  | nil => simp [applyFinal]
  | cons a rest ih =>
    have ha : a.id ≠ r.id := h a (by simp)
    simp only [applyFinal, if_neg ha, List.cons_append]
    rw [ih (fun x hx => h x (by simp [hx]))]

theorem applyFinal_decomp (l1 l2 : List VideoRecord) (old r : VideoRecord)
    (hfree : ∀ x ∈ l1, x.id ≠ r.id) (hold : old.id = r.id) :
    applyFinal (l1 ++ old :: l2) r =
      l1 ++ finalMerge old (preserveImageUrl old r) :: l2 := by
  induction l1 with
  | nil => simp [applyFinal, hold]
  | cons a rest ih =>
    have ha : a.id ≠ r.id := hfree a (by simp)
    simp only [List.cons_append, applyFinal, if_neg ha]
    exact congrArg (fun z => a :: z) (ih (fun x hx => hfree x (by simp [hx])))

theorem countById_applyFinal (videos : List VideoRecord) (r : VideoRecord) :
    countById (applyFinal videos r) r.id =
      if countById videos r.id = 0 then 1 else countById videos r.id := by
  induction videos with
  | nil => simp [applyFinal, countById]
  | cons a rest ih =>
    by_cases h : a.id = r.id
    · have hmid : (finalMerge a (preserveImageUrl a r)).id = r.id := preserveImageUrl_id a r
      simp only [applyFinal, if_pos h, countById, hmid]
      split_ifs <;> omega
    · simp only [applyFinal, if_neg h, countById, ih]
      split_ifs <;> omega

theorem finalVideoRecord_id (md : Option ImageMeta) (e : Option VideoRecord)
    (isu : Option String) (gid v now : String) (d : Option String → String) :
    (finalVideoRecord md e isu gid v now d).id = gid := rfl

theorem finalVideoRecord_imageUrl_none (md : ImageMeta) (e : Option VideoRecord)
    (gid v now : String) (d : Option String → String) (hmdurl : md.imageUrl = none) :
    (finalVideoRecord (some md) e none gid v now d).imageUrl = none := by
  unfold finalVideoRecord
  simp [hmdurl, truthyS_none]

theorem finalDescOf_of_prompt (md : ImageMeta) (e : Option VideoRecord)
    (d : Option String → String) (p : String)
    (himg : md.image = none) (hp : md.prompt = some p) (hpne : p ≠ "")
    (hb : isBase64ImagePrompt p = false) :
    finalDescOf (some md) e d = some p := by
  unfold finalDescOf
  simp [himg, hp, truthyS_none, truthyS_some, hpne, hb]

/-- With deterministic metadata (no cached image, a stable non-image prompt),
the completion-time record depends on the poll time only through `timestamp`. -/
theorem finalVideoRecord_time_shift (md : ImageMeta) (e1 e2 : Option VideoRecord)
    (gid v t1 t2 : String) (d : Option String → String) (p : String)
    (himg : md.image = none) (hp : md.prompt = some p) (hpne : p ≠ "")
    (hb : isBase64ImagePrompt p = false) :
    finalVideoRecord (some md) e2 none gid v t2 d =
      { finalVideoRecord (some md) e1 none gid v t1 d with timestamp := t2 } := by
  unfold finalVideoRecord
  rw [finalDescOf_of_prompt md e1 d p himg hp hpne hb,
    finalDescOf_of_prompt md e2 d p himg hp hpne hb]

/-- Re-merging a time-shifted copy of the incoming record over the already
merged record only refreshes `timestamp`. -/
theorem merge_time_shift (r1 vr1 : VideoRecord) (t2 : String)
    (hurl : vr1.imageUrl = none)
    (hr1 : truthyS r1.imageUrl = true ∨ r1.imageUrl = none)
    (hid : r1.id = vr1.id) (hu : r1.url = vr1.url) (ht : r1.title = vr1.title)
    (hc : r1.client = vr1.client) (hbg : r1.background = vr1.background)
    (hpr : r1.prompt = vr1.prompt) (hdesc : r1.imageDescription = vr1.imageDescription) :
    finalMerge r1 (preserveImageUrl r1 { vr1 with timestamp := t2 }) =
      { r1 with timestamp := t2 } := by
  unfold preserveImageUrl finalMerge
  rcases hr1 with h1 | h1
  · rw [if_pos ⟨by simp [hurl, truthyS_none], h1⟩]
    cases r1
    cases vr1
    simp_all
  · rw [if_neg (by simp [h1, truthyS_none])]
    cases r1
    cases vr1
    simp_all

/-- Claim C2 (amended): for the VIDEO status endpoint, under the standard
pending-metadata shape (metadata present, no cached image, a stable non-image
prompt, no stored image URL), two consecutive `completed` polls leave exactly one
record for the id, and the second poll's record equals the first's except for the
refreshed `timestamp` field.  (So the persisted records are byte-identical only
when the two polls share a timestamp; and the IMAGE status endpoint appends a
duplicate record on every completed poll: see the counterexample.) -/
theorem claim_C2_thm (st : ServerState) (gid v p now1 now2 : String) (md : ImageMeta)
    (describe : Option String → String)
    (hgid : gid ≠ "")
    (hmd : assocGet st.uploaded gid = some md)
    (himg : md.image = none) (hmdurl : md.imageUrl = none)
    (hp : md.prompt = some p) (hpne : p ≠ "") (hb : isBase64ImagePrompt p = false)
    (hcount : countById st.videos gid ≤ 1) :
    countById (videoStatusStep
        (videoStatusStep st gid ⟨"completed", some v, none⟩ now1 describe).1
        gid ⟨"completed", some v, none⟩ now2 describe).1.videos gid = 1 ∧
    ∃ r1 r2,
      findFirst (videoStatusStep st gid ⟨"completed", some v, none⟩ now1 describe).1.videos gid
        = some r1 ∧
      findFirst (videoStatusStep
        (videoStatusStep st gid ⟨"completed", some v, none⟩ now1 describe).1
        gid ⟨"completed", some v, none⟩ now2 describe).1.videos gid = some r2 ∧
      r2 = { r1 with timestamp := now2 } := by
  have hpre1 : preSaveStep st gid now1 = (none, st.uploaded) := by
    unfold preSaveStep
    rw [hmd]
    simp [himg, hmdurl, truthyS_none]
  have hv1 : (videoStatusStep st gid ⟨"completed", some v, none⟩ now1 describe).1 =
      ⟨applyFinal st.videos
        (finalVideoRecord (some md) (findFirst st.videos gid) none gid v now1 describe),
       st.uploaded, st.imageGens⟩ := by
    simp [videoStatusStep, hgid, hmd, hpre1]
  set vr1 := finalVideoRecord (some md) (findFirst st.videos gid) none gid v now1 describe
    with hvr1def
  set V1 := applyFinal st.videos vr1 with hV1def
  have hpre2 : preSaveStep ⟨V1, st.uploaded, st.imageGens⟩ gid now2 = (none, st.uploaded) := by
    unfold preSaveStep
    simp [hmd, himg, hmdurl, truthyS_none]
  have hv2 : (videoStatusStep (⟨V1, st.uploaded, st.imageGens⟩ : ServerState) gid
        ⟨"completed", some v, none⟩ now2 describe).1 =
      ⟨applyFinal V1 (finalVideoRecord (some md) (findFirst V1 gid) none gid v now2 describe),
       st.uploaded, st.imageGens⟩ := by
    simp [videoStatusStep, hgid, hmd, hpre2]
  set vr2 := finalVideoRecord (some md) (findFirst V1 gid) none gid v now2 describe
    with hvr2def
  have hvid1 : vr1.id = gid := rfl
  have hvid2 : vr2.id = gid := rfl
  have hvurl1 : vr1.imageUrl = none := by
    rw [hvr1def]
    exact finalVideoRecord_imageUrl_none md _ gid v now1 describe hmdurl
  have hshift : vr2 = { vr1 with timestamp := now2 } := by
    rw [hvr1def, hvr2def]
    exact finalVideoRecord_time_shift md (findFirst st.videos gid) (findFirst V1 gid)
      gid v now1 now2 describe p himg hp hpne hb
  simp only [hv1, hv2]
  have hc1 : countById V1 gid = 1 := by
    have hcc := countById_applyFinal st.videos vr1
    rw [hvid1, ← hV1def] at hcc
    rw [hcc]
    split_ifs <;> omega
  constructor
  · have hcc := countById_applyFinal V1 vr2
    rw [hvid2] at hcc
    rw [hcc, hc1]
    simp
  · cases hff : findFirst st.videos gid with
    | none =>
      have hall : ∀ x ∈ st.videos, x.id ≠ gid := (findFirst_eq_none st.videos gid).1 hff
      have hV : V1 = st.videos ++ [vr1] := by
        rw [hV1def]
        exact applyFinal_all_free st.videos vr1 (fun x hx => by rw [hvid1]; exact hall x hx)
      have hf1 : findFirst V1 gid = some vr1 := by
        rw [hV, findFirst_append_free st.videos [vr1] gid hall]
        simp [findFirst, hvid1]
      have hmerge : finalMerge vr1 (preserveImageUrl vr1 vr2) = { vr1 with timestamp := now2 } := by
        rw [hshift]
        exact merge_time_shift vr1 vr1 now2 hvurl1 (Or.inr hvurl1) rfl rfl rfl rfl rfl rfl rfl
      have h2 : applyFinal V1 vr2 = st.videos ++ [{ vr1 with timestamp := now2 }] := by
        rw [hV]
        rw [applyFinal_decomp st.videos [] vr1 vr2
          (fun x hx => by rw [hvid2]; exact hall x hx) (by rw [hvid1, hvid2])]
        rw [hmerge]
      refine ⟨vr1, { vr1 with timestamp := now2 }, hf1, ?_, rfl⟩
      rw [h2, findFirst_append_free st.videos _ gid hall]
      simp [findFirst, hvid1]
    | some old =>
      obtain ⟨l1, l2, hdec, hfree⟩ := findFirst_decomp st.videos gid old hff
      set m1 := finalMerge old (preserveImageUrl old vr1) with hm1def
      have hm1id : m1.id = gid := by
        rw [hm1def]
        show (preserveImageUrl old vr1).id = gid
        rw [preserveImageUrl_id]
        exact hvid1
      have hV : V1 = l1 ++ m1 :: l2 := by
        rw [hV1def, hdec]
        exact applyFinal_decomp l1 l2 old vr1
          (fun x hx => by rw [hvid1]; exact hfree x hx)
          (by rw [hvid1]; exact findFirst_some_id st.videos gid old hff)
      have hf1 : findFirst V1 gid = some m1 := by
        rw [hV, findFirst_append_free l1 (m1 :: l2) gid hfree]
        simp [findFirst, hm1id]
      have hmerge : finalMerge m1 (preserveImageUrl m1 vr2) = { m1 with timestamp := now2 } := by
        rw [hshift]
        refine merge_time_shift m1 vr1 now2 hvurl1 ?_ ?_ ?_ ?_ ?_ ?_ ?_ ?_
        · exact preserve_imageUrl_cases old vr1 hvurl1
        · show (preserveImageUrl old vr1).id = vr1.id
          exact preserveImageUrl_id old vr1
        · show (preserveImageUrl old vr1).url = vr1.url
          exact preserveImageUrl_url old vr1
        · show (preserveImageUrl old vr1).title = vr1.title
          exact preserveImageUrl_title old vr1
        · show (preserveImageUrl old vr1).client = vr1.client
          exact preserveImageUrl_client old vr1
        · show (preserveImageUrl old vr1).background = vr1.background
          exact preserveImageUrl_background old vr1
        · show (preserveImageUrl old vr1).prompt = vr1.prompt
          exact preserveImageUrl_prompt old vr1
        · show (preserveImageUrl old vr1).imageDescription = vr1.imageDescription
          exact preserveImageUrl_imageDescription old vr1
      have h2 : applyFinal V1 vr2 = l1 ++ { m1 with timestamp := now2 } :: l2 := by
        rw [hV]
        rw [applyFinal_decomp l1 l2 m1 vr2
          (fun x hx => by rw [hvid2]; exact hfree x hx) (by rw [hvid2]; exact hm1id)]
        rw [hmerge]
      refine ⟨m1, { m1 with timestamp := now2 }, hf1, ?_, rfl⟩
      rw [h2, findFirst_append_free l1 _ gid hfree]
      simp [findFirst, hm1id]

/-- Witness for claim C2 at a concrete state: one uploaded-metadata entry,
two completed polls at times T1 and T2. -/
theorem claim_C2_wit :
    countById (videoStatusStep
        (videoStatusStep ⟨[], [("g", ⟨some "t", some "c", some "#fff", some "a cat",
              some "a cat", none, none, true, "T0"⟩)], []⟩ "g"
          ⟨"completed", some "http://v/x.mp4", none⟩ "T1" (fun _ => "d")).1
        "g" ⟨"completed", some "http://v/x.mp4", none⟩ "T2" (fun _ => "d")).1.videos "g" = 1 ∧
    ∃ r1 r2,
      findFirst (videoStatusStep ⟨[], [("g", ⟨some "t", some "c", some "#fff", some "a cat",
              some "a cat", none, none, true, "T0"⟩)], []⟩ "g"
          ⟨"completed", some "http://v/x.mp4", none⟩ "T1" (fun _ => "d")).1.videos "g"
        = some r1 ∧
      findFirst (videoStatusStep
        (videoStatusStep ⟨[], [("g", ⟨some "t", some "c", some "#fff", some "a cat",
              some "a cat", none, none, true, "T0"⟩)], []⟩ "g"
          ⟨"completed", some "http://v/x.mp4", none⟩ "T1" (fun _ => "d")).1
        "g" ⟨"completed", some "http://v/x.mp4", none⟩ "T2" (fun _ => "d")).1.videos "g"
        = some r2 ∧
      r2 = { r1 with timestamp := "T2" } :=
  claim_C2_thm ⟨[], [("g", ⟨some "t", some "c", some "#fff", some "a cat",
      some "a cat", none, none, true, "T0"⟩)], []⟩ "g" "http://v/x.mp4" "a cat" "T1" "T2"
    ⟨some "t", some "c", some "#fff", some "a cat", some "a cat", none, none, true, "T0"⟩
    (fun _ => "d") (by decide) (by decide) rfl rfl rfl (by decide) (by decide) (by decide)

/-- Counterexample to claim C2 as stated: the image status endpoint appends a
fresh record on every completed poll (two polls leave two entries for the id,
src/server.js line 1070 pushes unconditionally), and the video status endpoint
stamps each finalization with the current time, so polls at different times do
not leave byte-identical records. -/
theorem claim_C2_cx :
    countById (imageStatusStep
        (imageStatusStep ⟨[], [], [("g", ⟨some "t", some "c", some "#fff", some "a cat",
            "a cat", 1, "T0"⟩)]⟩ "g" ⟨"completed", some "http://i/x.jpg", none⟩ "T1").1
        "g" ⟨"completed", some "http://i/x.jpg", none⟩ "T2").1.videos "g" = 2 ∧
    findFirst (videoStatusStep
        (videoStatusStep ⟨[], [("g", ⟨some "t", some "c", some "#fff", some "a cat",
            some "a cat", none, none, true, "T0"⟩)], []⟩ "g"
          ⟨"completed", some "http://v/y.mp4", none⟩ "T1" (fun _ => "d")).1
        "g" ⟨"completed", some "http://v/y.mp4", none⟩ "T2" (fun _ => "d")).1.videos "g" ≠
    findFirst (videoStatusStep ⟨[], [("g", ⟨some "t", some "c", some "#fff", some "a cat",
            some "a cat", none, none, true, "T0"⟩)], []⟩ "g"
          ⟨"completed", some "http://v/y.mp4", none⟩ "T1" (fun _ => "d")).1.videos "g" := by
  decide
